import Mathlib

/-!
Verification development for the PHOEBE legacy-file parser
(`phoebe/io/parsers.py`).  The parser `legacy_to_phoebe` reads a legacy
"key = value" parameter file line by line, routes each key to a mutation of
an orbit record, two component records, indexed light-curve dependency
records, or flat radial-velocity accumulator sequences, and finally reduces
the accumulators into per-star RV dependency and observation records.

The embedding below follows the Python source statement by statement:

* a line is a `List Char`; as with `file.readlines()`, every line carries its
  trailing newline character;
* Python runtime failures that the source does not catch (`NameError` on an
  unset local, `IndexError` on list/string indexing, `ValueError` from
  `float`/`int`/tuple unpacking, a missing observation file) are modelled by
  `Option`: a step returning `none` aborts the whole parse;
* Python floats are idealised as real numbers; numeric literals parsed from
  the file are rationals (the `float()` builtin, which is library code, is
  modelled for decimal literals with optional sign, fraction and exponent),
  cast into `ℝ` where the source does arithmetic on them;
* the collaborating `ParameterSet` record type (not part of the sources
  under review) is, following the spec, a mutable record with named-field
  get/set; it is modelled as an association list from field names to values.
-/

/-- Shorthand turning a string literal into the `List Char` the embedding
works on. -/
def str (s : String) : List Char := s.data

/-- Whitespace recognised by the `float()`/`int()` builtins when stripping. -/
def isWs (c : Char) : Bool := c = ' ' ∨ c = '\n' ∨ c = '\t' ∨ c = '\r'

/-- Python slice bound: a negative index counts from the end, and bounds are
clamped into `[0, len]`. -/
def sliceBound (len : Nat) (i : Int) : Nat :=
  if 0 ≤ i then min i.toNat len else ((len : Int) + i).toNat

/-- Python string slice `s[a:b]` (with negative-index semantics). -/
def pySlice (s : List Char) (a b : Int) : List Char :=
  (s.take (sliceBound s.length b)).drop (sliceBound s.length a)

/-- Python list read `l[i]` for a nonnegative index: `IndexError` out of
range becomes `none`. -/
def pyGetN (l : List α) (i : Nat) : Option α := l.get? i

/-- Python list element assignment `l[i] = v` for a nonnegative index. -/
def pySetN (l : List α) (i : Nat) (v : α) : Option (List α) :=
  if i < l.length then some (l.set i v) else none

/-- Normalise a possibly negative Python index against a list length. -/
def pyIdx (len : Nat) (i : Int) : Option Nat :=
  if 0 ≤ i then (if i < (len : Int) then some i.toNat else none)
  else (if 0 ≤ i + (len : Int) then some (i + (len : Int)).toNat else none)

/-- Python list read `l[i]` with negative-index semantics. -/
def pyGetI (l : List α) (i : Int) : Option α :=
  (pyIdx l.length i).bind l.get?

/-- Python in-place update `l[i]['field'] = ...`: read the record at `i`,
transform it, and write it back. -/
def pyUpdI (l : List α) (i : Int) (f : α → α) : Option (List α) :=
  match pyIdx l.length i with
  | none => none
  | some j => match l.get? j with
              | none => none
              | some a => some (l.set j (f a))

/-- Worker for Python `s.split(sep)` with a non-empty separator `c :: cs`.
The `Nat` argument is recursion fuel, instantiated with the length of the
scanned string (consuming a separator removes at least one character, so the
fuel never runs out). -/
def splitGo (c : Char) (cs : List Char) : Nat → List Char → List (List Char)
  | _, [] => [[]]
  | 0, s => [s]
  | fuel + 1, a :: rest =>
    if (c :: cs).isPrefixOf (a :: rest) then
      [] :: splitGo c cs fuel (rest.drop cs.length)
    else
      match splitGo c cs fuel rest with
      | [] => [[a]]
      | h :: t => (a :: h) :: t

/-- Python `s.split(sep)`.  The source never splits on an empty separator. -/
def splitSub (sep s : List Char) : List (List Char) :=
  match sep with
  | [] => [s]
  | c :: cs => splitGo c cs s.length s

/-- The try/except around `key, val = l.split('=')`: unpacking succeeds only
when the split yields exactly two parts; otherwise the line is logged and
skipped by the caller. -/
def tokenize (l : List Char) : Option (List Char × List Char) :=
  match splitSub ['='] l with
  | [k, v] => some (k, v)
  | _ => none

/-- `re.search('\[(\d)\]', key)`: first bracketed single digit in the key. -/
def findBr : List Char → Option Char
  | a :: b :: c :: rest =>
    if a = '[' ∧ b.isDigit ∧ c = ']' then some b
    else findBr (b :: c :: rest)
  | _ => none

/-- `key = "".join(key.split(pattern.group(0)))`: remove every occurrence of
the matched bracket group from the key. -/
def remBr (k : List Char) : List Char :=
  match findBr k with
  | some d => List.intercalate [] (splitSub ['[', d, ']'] k)
  | none => k

/-- `while key[len(key)-1] == ' ': key = key[:-1]` — strips trailing spaces;
on an empty or all-space key the Python code raises `IndexError`. -/
def stripKey (k : List Char) : Option (List Char) :=
  let r := (k.reverse.dropWhile (· = ' ')).reverse
  if r = [] then none else some r

/-- `str.upper()` on the character lists the parser works with. -/
def upperCL (s : List Char) : List Char := s.map Char.toUpper

/-- Decimal value of a digit string. -/
def digitsToNat (ds : List Char) : Nat :=
  ds.foldl (fun a c => a * 10 + (c.toNat - 48)) 0

/-- Exponent part of a float literal: optional sign plus digits. -/
def parseExpPart (t : List Char) : Option Int :=
  match t with
  | '+' :: r => if r ≠ [] ∧ r.all Char.isDigit then some (digitsToNat r) else none
  | '-' :: r => if r ≠ [] ∧ r.all Char.isDigit then some (-(digitsToNat r : Int)) else none
  | r => if r ≠ [] ∧ r.all Char.isDigit then some (digitsToNat r) else none

/-- Integer power of ten as a rational. -/
def qpow10 (e : Int) : ℚ :=
  if 0 ≤ e then (10 : ℚ) ^ e.toNat else 1 / (10 : ℚ) ^ (-e).toNat

/-- Unsigned part of a float literal: digits, optional fraction, optional
exponent. -/
def parseMantissa (t : List Char) : Option ℚ :=
  let ip := t.takeWhile Char.isDigit
  let r1 := t.dropWhile Char.isDigit
  match r1 with
  | [] => if ip = [] then none else some (digitsToNat ip : ℚ)
  | '.' :: r2 =>
    let fp := r2.takeWhile Char.isDigit
    let r3 := r2.dropWhile Char.isDigit
    if ip = [] ∧ fp = [] then none
    else
      let m : ℚ := (digitsToNat ip : ℚ) + (digitsToNat fp : ℚ) / (10 : ℚ) ^ fp.length
      match r3 with
      | [] => some m
      | c :: r4 =>
        if c = 'e' ∨ c = 'E' then (parseExpPart r4).map (fun e => m * qpow10 e) else none
  | c :: r4 =>
    if c = 'e' ∨ c = 'E' then
      if ip = [] then none
      else (parseExpPart r4).map (fun e => (digitsToNat ip : ℚ) * qpow10 e)
    else none

/-- Strip leading and trailing whitespace, as the numeric builtins do. -/
def stripWs (s : List Char) : List Char :=
  ((s.dropWhile isWs).reverse.dropWhile isWs).reverse

/-- The `float()` builtin on decimal literals; a value it cannot parse is an
uncaught `ValueError`, i.e. `none`. -/
def parseFloat (s : List Char) : Option ℚ :=
  match stripWs s with
  | '+' :: t => parseMantissa t
  | '-' :: t => (parseMantissa t).map (fun (q : ℚ) => -q)
  | t => parseMantissa t

/-- The `int()` builtin: optional sign and digits only. -/
def parseIntPy (s : List Char) : Option Int :=
  match stripWs s with
  | '+' :: t => if t ≠ [] ∧ t.all Char.isDigit then some (digitsToNat t) else none
  | '-' :: t => if t ≠ [] ∧ t.all Char.isDigit then some (-(digitsToNat t : Int)) else none
  | t => if t ≠ [] ∧ t.all Char.isDigit then some (digitsToNat t) else none

/-- Python `str(n)` for the nonnegative running indices. -/
def natChars (n : Nat) : List Char := Nat.toDigits 10 n

/-- The value normalisation applied to every tokenised value (lines 84-117
of the source): Bessell special case, generic `Instrument:Band` passband
remapping with the fixed synonym table, and the SLOAN substring
substitution.  `separate = re.search(':', val)` is evaluated on the raw
value. -/
def normalizeVal (v : List Char) : List Char :=
  if pySlice v 2 5 = str "Bes" then
    let v1 := upperCL (pySlice v 2 (-2))
    let v2 := List.intercalate (str ".") (splitSub (str "L IR:") v1)
    if pySlice v2 0 8 = str "BESSEL.L" then str "BESSEL.LPRIME" else v2
  else if ':' ∈ v then
    let v1 := List.intercalate (str ".") (splitSub (str ":") v)
    let v2 := upperCL (pySlice v1 2 (-2))
    if v2 = str "COROT.SISMO" then str "COROT.SIS"
    else if v2 = str "KEPLER.MEAN" then str "KEPLER.V"
    else if v2 = str "IRAC.CH1" then str "IRAC.36"
    else if v2 = str "MOST.DEFAULT" then str "MOST.V"
    else if v2 = str "STROMGREN.HBETA_NARROW" then str "STROMGREN.HBN"
    else if v2 = str "STROMGREN.HBETA_WIDE" then str "STROMGREN.HBW"
    else if v2 = str "BOLOMETRIC.3000A-10000A" then str "OPEN.BOL"
    else if v2 = str "HIPPARCOS.BT" then str "TYCHO.BT"
    else if v2 = str "HIPPARCOS.VT" then str "TYCHO.VT"
    else if pySlice v2 0 5 = str "SLOAN" then
      pySlice (List.intercalate (str "SDSS") (splitSub (str "SLOAN") v2)) 0 (-1)
    else v2
  else v

/-- A value stored in a collaborator `ParameterSet` field.  `su` keeps the
raw value string together with the unit tag the source passes alongside it
(`orbit['period'] = (val,'d')`); `r` is a converted numeric value; `pr` a
limb-darkening coefficient pair. -/
inductive PVal where
  | s (v : List Char)
  | su (v : List Char) (unit : String)
  | r (v : ℝ)
  | b (v : Bool)
  | pr (x y : ℝ)

/-- Modelled from the spec: the collaborator parameter-record constructor
returns a mutable record with named-field get/set (`phoebe.parameters` is
not among the sources under review).  It is modelled as an association
list. -/
abbrev ParamSet := List (String × PVal)

/-- Named-field read on a parameter record. -/
def psGet : ParamSet → String → Option PVal
  | [], _ => none
  | (k', v) :: t, k => if k' = k then some v else psGet t k

/-- Named-field write on a parameter record. -/
def psSet (p : ParamSet) (k : String) (v : PVal) : ParamSet :=
  match p with
  | [] => [(k, v)]
  | (k', v') :: t => if k' = k then (k, v) :: t else (k', v') :: psSet t k v

/-- One light-curve dependency record (`parameters.ParameterSet(context='lcdep')`).
Fields are `none` until the parser assigns them. -/
structure LCDep where
  ref : Option (List Char) := none
  passband : Option (List Char) := none
  pblum : Option ℝ := none
  l3 : Option ℝ := none
  ld_coeffs : Option (ℝ × ℝ) := none
  atm : Option PVal := none
  alb : Option PVal := none
  ld_func : Option PVal := none

/-- One radial-velocity dependency record (`context='rvdep'`). -/
structure RVDep where
  ref : Option (List Char) := none
  passband : Option (List Char) := none
  ld_coeffs : Option (ℝ × ℝ) := none
  atm : Option PVal := none
  alb : Option PVal := none
  ld_func : Option PVal := none

/-- One `datasets.RVDataSet` observation record. -/
structure RVObs where
  time : Option (List ℝ) := none
  phase : Option (List ℝ) := none
  rv : Option (List ℝ) := none
  sigma : Option (List ℝ) := none
  weight : Option (List ℝ) := none
  columns : List (List Char) := []
  ref : List Char := []
  filename : List Char := []
  statweight : ℝ := 0
  user_components : List Char := []

/-- The observation-file collaborator (`np.loadtxt(..., unpack=True)`): maps
a filename to the list of numeric columns of that file, `none` when the file
is missing or unreadable. -/
abbrev FS := List Char → Option (List (List ℝ))

/-- `col1, col2 = np.loadtxt(f, unpack=True)`: unpacking requires exactly
two columns. -/
def loadtxt2 (fs : FS) (f : List Char) : Option (List ℝ × List ℝ) :=
  match fs f with
  | some [a, b] => some (a, b)
  | _ => none

/-- `col1, col2, col3 = np.loadtxt(f, unpack=True)`: exactly three columns. -/
def loadtxt3 (fs : FS) (f : List Char) : Option (List ℝ × List ℝ × List ℝ) :=
  match fs f with
  | some [a, b, c] => some (a, b, c)
  | _ => none

/-- The local variables of `legacy_to_phoebe` that the line loop mutates.
`Option` fields are Python locals that may not have been assigned yet
(reading them while unset is a fatal `NameError`).  The unused locals of the
source (`rv_pb`-independent scratch lists `obslc`, `lc_pbweight`, `rvfile`,
`lcfile`, and the dead read `alb2`) are omitted. -/
structure PState where
  index : Option Int := none
  lcno : Option Int := none
  lcdep1 : List LCDep := []
  lcdep2 : List LCDep := []
  rvno : Option Int := none
  rv_dep : List (List Char) := []
  prim_rv : Nat := 0
  sec_rv : Nat := 0
  rv_pb : List (List Char) := []
  rv_pbweight : List ℝ := []
  ld_coeffs1 : List (ℝ × ℝ) := []
  ld_coeffs2 : List (ℝ × ℝ) := []
  rv_file : List (List Char) := []
  rvtime : List (List Char) := []
  rvsigma : List (List Char) := []
  rvname : List (List Char) := []
  ld_lcy1 : Option ℝ := none
  ld_lcy2 : Option ℝ := none
  ld_rvx1 : Option ℝ := none
  ld_rvx2 : Option ℝ := none
  ld_xbol1 : Option ℝ := none
  ld_xbol2 : Option ℝ := none
  ld_ybol1 : Option ℝ := none
  ld_ybol2 : Option ℝ := none
  orbit : ParamSet := []
  comp1 : ParamSet := [("label", PVal.s (str "myprimary"))]
  comp2 : ParamSet := [("label", PVal.s (str "mysecondary"))]
  globs : ParamSet := []
  mesh1wd : ParamSet := []
  mesh2wd : ParamSet := []

/-- The parser state at function entry. -/
def initState : PState := {}

/-- The conversion applied to `phoebe_perr0.MAX/MIN/STEP` values before they
are stored on the `per0` parameter (source lines 187-192):
`float(val)/np.pi*180`. -/
noncomputable def perr0LimitConv (v : ℝ) : ℝ := v / Real.pi * 180

/-- Modelled from the spec's words, for comparison with `perr0LimitConv`:
"legacy units (degrees) are converted to the internal units (radians) via
π/180", i.e. multiplication by π/180. -/
noncomputable def perr0LimitConvSpec (v : ℝ) : ℝ := v * (Real.pi / 180)

/-- The conversion applied to `phoebe_dperdt.MAX/MIN/STEP` values:
`float(val)*np.pi*365.25/180`. -/
noncomputable def dperdtLimitConv (v : ℝ) : ℝ := v * Real.pi * 365.25 / 180

/-- Sequential composition of two key routers.  The Python source is one
`elif` chain over the orbit and component keys followed by a block of
independent `if` statements; every router below tests a set of keys disjoint
from all the others, so chaining them yields exactly the source's
dispatch. -/
def pseq (f g : PState → String → List Char → Option PState)
    (s : PState) (k : String) (v : List Char) : Option PState :=
  match f s k v with
  | none => none
  | some s1 => g s1 k v

/-- `phoebe_lcno` and `phoebe_rvno` (source lines 123-129): the light-curve
count allocates the two index-parallel `lcdep` arrays; the RV count is only
recorded. -/
def applyCounts (s : PState) (k : String) (v : List Char) : Option PState :=
  if k = "phoebe_lcno" then
    (parseIntPy v).map (fun n =>
      { s with lcno := some n, lcdep1 := List.replicate n.toNat {},
               lcdep2 := List.replicate n.toNat {} })
  else if k = "phoebe_rvno" then
    (parseIntPy v).map (fun n => { s with rvno := some n })
  else some s

/-- `phoebe_dpdt.*` (source lines 131-138); limits and step are scaled by
31557600 (years to days-equivalent rate). -/
noncomputable def applyDpdt (s : PState) (k : String) (v : List Char) : Option PState :=
  if k = "phoebe_dpdt.VAL" then
    some { s with orbit := psSet s.orbit "dpdt" (.su v "d/d") }
  else if k = "phoebe_dpdt.MAX" then
    (parseFloat v).map (fun (q : ℚ) => { s with orbit := psSet s.orbit "dpdt.ulim" (.r ((q : ℝ) * 31557600)) })
  else if k = "phoebe_dpdt.MIN" then
    (parseFloat v).map (fun (q : ℚ) => { s with orbit := psSet s.orbit "dpdt.llim" (.r ((q : ℝ) * 31557600)) })
  else if k = "phoebe_dpdt.STEP" then
    (parseFloat v).map (fun (q : ℚ) => { s with orbit := psSet s.orbit "dpdt.step" (.r ((q : ℝ) * 31557600)) })
  else some s

/-- `phoebe_dperdt.*` (source lines 140-147). -/
noncomputable def applyDperdt (s : PState) (k : String) (v : List Char) : Option PState :=
  if k = "phoebe_dperdt.VAL" then
    some { s with orbit := psSet s.orbit "dperdt" (.su v "rad/d") }
  else if k = "phoebe_dperdt.MAX" then
    (parseFloat v).map (fun (q : ℚ) => { s with orbit := psSet s.orbit "dperdt.ulim" (.r (dperdtLimitConv (q : ℝ))) })
  else if k = "phoebe_dperdt.MIN" then
    (parseFloat v).map (fun (q : ℚ) => { s with orbit := psSet s.orbit "dperdt.llim" (.r (dperdtLimitConv (q : ℝ))) })
  else if k = "phoebe_dperdt.STEP" then
    (parseFloat v).map (fun (q : ℚ) => { s with orbit := psSet s.orbit "dperdt.step" (.r (dperdtLimitConv (q : ℝ))) })
  else some s

/-- `phoebe_ecc.*` (source lines 149-156). -/
noncomputable def applyEcc (s : PState) (k : String) (v : List Char) : Option PState :=
  if k = "phoebe_ecc.VAL" then
    some { s with orbit := psSet s.orbit "ecc" (.s v) }
  else if k = "phoebe_ecc.MAX" then
    (parseFloat v).map (fun (q : ℚ) => { s with orbit := psSet s.orbit "ecc.ulim" (.r (q : ℝ)) })
  else if k = "phoebe_ecc.MIN" then
    (parseFloat v).map (fun (q : ℚ) => { s with orbit := psSet s.orbit "ecc.llim" (.r (q : ℝ)) })
  else if k = "phoebe_ecc.STEP" then
    (parseFloat v).map (fun (q : ℚ) => { s with orbit := psSet s.orbit "ecc.step" (.r (q : ℝ)) })
  else some s

/-- `phoebe_hjd0.*` (source lines 158-165), stored on `t0`. -/
noncomputable def applyHjd0 (s : PState) (k : String) (v : List Char) : Option PState :=
  if k = "phoebe_hjd0.VAL" then
    some { s with orbit := psSet s.orbit "t0" (.su v "JD") }
  else if k = "phoebe_hjd0.MAX" then
    (parseFloat v).map (fun (q : ℚ) => { s with orbit := psSet s.orbit "t0.ulim" (.r (q : ℝ)) })
  else if k = "phoebe_hjd0.MIN" then
    (parseFloat v).map (fun (q : ℚ) => { s with orbit := psSet s.orbit "t0.llim" (.r (q : ℝ)) })
  else if k = "phoebe_hjd0.STEP" then
    (parseFloat v).map (fun (q : ℚ) => { s with orbit := psSet s.orbit "t0.step" (.r (q : ℝ)) })
  else some s

/-- `phoebe_incl.*` (source lines 167-174). -/
noncomputable def applyIncl (s : PState) (k : String) (v : List Char) : Option PState :=
  if k = "phoebe_incl.VAL" then
    some { s with orbit := psSet s.orbit "incl" (.su v "deg") }
  else if k = "phoebe_incl.MAX" then
    (parseFloat v).map (fun (q : ℚ) => { s with orbit := psSet s.orbit "incl.ulim" (.r (q : ℝ)) })
  else if k = "phoebe_incl.MIN" then
    (parseFloat v).map (fun (q : ℚ) => { s with orbit := psSet s.orbit "incl.llim" (.r (q : ℝ)) })
  else if k = "phoebe_incl.STEP" then
    (parseFloat v).map (fun (q : ℚ) => { s with orbit := psSet s.orbit "incl.step" (.r (q : ℝ)) })
  else some s

/-- `phoebe_period.*` (source lines 176-183). -/
noncomputable def applyPeriod (s : PState) (k : String) (v : List Char) : Option PState :=
  if k = "phoebe_period.VAL" then
    some { s with orbit := psSet s.orbit "period" (.su v "d") }
  else if k = "phoebe_period.MAX" then
    (parseFloat v).map (fun (q : ℚ) => { s with orbit := psSet s.orbit "period.ulim" (.r (q : ℝ)) })
  else if k = "phoebe_period.MIN" then
    (parseFloat v).map (fun (q : ℚ) => { s with orbit := psSet s.orbit "period.llim" (.r (q : ℝ)) })
  else if k = "phoebe_period.STEP" then
    (parseFloat v).map (fun (q : ℚ) => { s with orbit := psSet s.orbit "period.step" (.r (q : ℝ)) })
  else some s

/-- `phoebe_perr0.*` (source lines 185-192), stored on `per0`; the limits
and step are passed through `float(val)/np.pi*180`. -/
noncomputable def applyPerr0 (s : PState) (k : String) (v : List Char) : Option PState :=
  if k = "phoebe_perr0.VAL" then
    some { s with orbit := psSet s.orbit "per0" (.su v "rad") }
  else if k = "phoebe_perr0.MAX" then
    (parseFloat v).map (fun (q : ℚ) => { s with orbit := psSet s.orbit "per0.ulim" (.r (perr0LimitConv (q : ℝ))) })
  else if k = "phoebe_perr0.MIN" then
    (parseFloat v).map (fun (q : ℚ) => { s with orbit := psSet s.orbit "per0.llim" (.r (perr0LimitConv (q : ℝ))) })
  else if k = "phoebe_perr0.STEP" then
    (parseFloat v).map (fun (q : ℚ) => { s with orbit := psSet s.orbit "per0.step" (.r (perr0LimitConv (q : ℝ))) })
  else some s

/-- `phoebe_pshift.*` (source lines 194-201), stored on `phshift`. -/
noncomputable def applyPshift (s : PState) (k : String) (v : List Char) : Option PState :=
  if k = "phoebe_pshift.VAL" then
    some { s with orbit := psSet s.orbit "phshift" (.s v) }
  else if k = "phoebe_pshift.MAX" then
    (parseFloat v).map (fun (q : ℚ) => { s with orbit := psSet s.orbit "phshift.ulim" (.r (q : ℝ)) })
  else if k = "phoebe_pshift.MIN" then
    (parseFloat v).map (fun (q : ℚ) => { s with orbit := psSet s.orbit "phshift.llim" (.r (q : ℝ)) })
  else if k = "phoebe_pshift.STEP" then
    (parseFloat v).map (fun (q : ℚ) => { s with orbit := psSet s.orbit "phshift.step" (.r (q : ℝ)) })
  else some s

/-- `phoebe_rm.*` (source lines 203-210), stored on the mass ratio `q`. -/
noncomputable def applyRm (s : PState) (k : String) (v : List Char) : Option PState :=
  if k = "phoebe_rm.VAL" then
    some { s with orbit := psSet s.orbit "q" (.s v) }
  else if k = "phoebe_rm.MAX" then
    (parseFloat v).map (fun (q : ℚ) => { s with orbit := psSet s.orbit "q.ulim" (.r (q : ℝ)) })
  else if k = "phoebe_rm.MIN" then
    (parseFloat v).map (fun (q : ℚ) => { s with orbit := psSet s.orbit "q.llim" (.r (q : ℝ)) })
  else if k = "phoebe_rm.STEP" then
    (parseFloat v).map (fun (q : ℚ) => { s with orbit := psSet s.orbit "q.step" (.r (q : ℝ)) })
  else some s

/-- `phoebe_vga.*` (source lines 212-219), stored on the globals record. -/
noncomputable def applyVga (s : PState) (k : String) (v : List Char) : Option PState :=
  if k = "phoebe_vga.VAL" then
    some { s with globs := psSet s.globs "vgamma" (.su v "km/s") }
  else if k = "phoebe_vga.MAX" then
    (parseFloat v).map (fun (q : ℚ) => { s with globs := psSet s.globs "vgamma.ulim" (.r (q : ℝ)) })
  else if k = "phoebe_vga.MIN" then
    (parseFloat v).map (fun (q : ℚ) => { s with globs := psSet s.globs "vgamma.llim" (.r (q : ℝ)) })
  else if k = "phoebe_vga.STEP" then
    (parseFloat v).map (fun (q : ℚ) => { s with globs := psSet s.globs "vgamma.step" (.r (q : ℝ)) })
  else some s

/-- `phoebe_sma.*` (source lines 221-228). -/
noncomputable def applySma (s : PState) (k : String) (v : List Char) : Option PState :=
  if k = "phoebe_sma.VAL" then
    some { s with orbit := psSet s.orbit "sma" (.su v "Rsol") }
  else if k = "phoebe_sma.MAX" then
    (parseFloat v).map (fun (q : ℚ) => { s with orbit := psSet s.orbit "sma.ulim" (.r (q : ℝ)) })
  else if k = "phoebe_sma.MIN" then
    (parseFloat v).map (fun (q : ℚ) => { s with orbit := psSet s.orbit "sma.llim" (.r (q : ℝ)) })
  else if k = "phoebe_sma.STEP" then
    (parseFloat v).map (fun (q : ℚ) => { s with orbit := psSet s.orbit "sma.step" (.r (q : ℝ)) })
  else some s

/-- `phoebe_grid_finesize1/2` (source lines 231-234). -/
def applyMesh (s : PState) (k : String) (v : List Char) : Option PState :=
  if k = "phoebe_grid_finesize1" then
    some { s with mesh1wd := psSet s.mesh1wd "gridsize" (.s v) }
  else if k = "phoebe_grid_finesize2" then
    some { s with mesh2wd := psSet s.mesh2wd "gridsize" (.s v) }
  else some s

/-- First part of the key dispatch (source lines 123-234): the structural
counts and the orbit/system scalars, in source order. -/
noncomputable def applyOrbit : PState → String → List Char → Option PState :=
  pseq applyCounts (pseq applyDpdt (pseq applyDperdt (pseq applyEcc (pseq applyHjd0
    (pseq applyIncl (pseq applyPeriod (pseq applyPerr0 (pseq applyPshift
    (pseq applyRm (pseq applyVga (pseq applySma applyMesh)))))))))))

/-- `phoebe_atm1_switch` / `phoebe_atm2_switch` (source lines 237-246). -/
def applyAtm (s : PState) (k : String) (v : List Char) : Option PState :=
  if k = "phoebe_atm1_switch" then
    some (if pySlice v 1 (-1) = str "1"
          then { s with comp1 := psSet s.comp1 "atm" (.s (str "kurucz")) }
          else { s with comp1 := psSet s.comp1 "atm" (.s (str "blackbody")) })
  else if k = "phoebe_atm2_switch" then
    some (if pySlice v 1 (-1) = str "1"
          then { s with comp2 := psSet s.comp2 "atm" (.s (str "kurucz")) }
          else { s with comp2 := psSet s.comp2 "atm" (.s (str "blackbody")) })
  else some s

/-- `phoebe_alb1.*` / `phoebe_alb2.*` (source lines 250-267; the dead local
read `alb2 = comp2['alb']` is omitted). -/
noncomputable def applyAlb (s : PState) (k : String) (v : List Char) : Option PState :=
  if k = "phoebe_alb1.VAL" then
    some { s with comp1 := psSet s.comp1 "alb" (.s v) }
  else if k = "phoebe_alb1.MAX" then
    (parseFloat v).map (fun (q : ℚ) => { s with comp1 := psSet s.comp1 "alb.ulim" (.r (q : ℝ)) })
  else if k = "phoebe_alb1.MIN" then
    (parseFloat v).map (fun (q : ℚ) => { s with comp1 := psSet s.comp1 "alb.llim" (.r (q : ℝ)) })
  else if k = "phoebe_alb1.STEP" then
    (parseFloat v).map (fun (q : ℚ) => { s with comp1 := psSet s.comp1 "alb.step" (.r (q : ℝ)) })
  else if k = "phoebe_alb2.VAL" then
    some { s with comp2 := psSet s.comp2 "alb" (.s v) }
  else if k = "phoebe_alb2.MAX" then
    (parseFloat v).map (fun (q : ℚ) => { s with comp2 := psSet s.comp2 "alb.ulim" (.r (q : ℝ)) })
  else if k = "phoebe_alb2.MIN" then
    (parseFloat v).map (fun (q : ℚ) => { s with comp2 := psSet s.comp2 "alb.llim" (.r (q : ℝ)) })
  else if k = "phoebe_alb2.STEP" then
    (parseFloat v).map (fun (q : ℚ) => { s with comp2 := psSet s.comp2 "alb.step" (.r (q : ℝ)) })
  else some s

/-- `phoebe_f1.*` / `phoebe_f2.*` (source lines 269-285), stored on
`syncpar`. -/
noncomputable def applySync (s : PState) (k : String) (v : List Char) : Option PState :=
  if k = "phoebe_f1.VAL" then
    some { s with comp1 := psSet s.comp1 "syncpar" (.s v) }
  else if k = "phoebe_f1.MAX" then
    (parseFloat v).map (fun (q : ℚ) => { s with comp1 := psSet s.comp1 "syncpar.ulim" (.r (q : ℝ)) })
  else if k = "phoebe_f1.MIN" then
    (parseFloat v).map (fun (q : ℚ) => { s with comp1 := psSet s.comp1 "syncpar.llim" (.r (q : ℝ)) })
  else if k = "phoebe_f1.STEP" then
    (parseFloat v).map (fun (q : ℚ) => { s with comp1 := psSet s.comp1 "syncpar.step" (.r (q : ℝ)) })
  else if k = "phoebe_f2.VAL" then
    some { s with comp2 := psSet s.comp2 "syncpar" (.s v) }
  else if k = "phoebe_f2.MAX" then
    (parseFloat v).map (fun (q : ℚ) => { s with comp2 := psSet s.comp2 "syncpar.ulim" (.r (q : ℝ)) })
  else if k = "phoebe_f2.MIN" then
    (parseFloat v).map (fun (q : ℚ) => { s with comp2 := psSet s.comp2 "syncpar.llim" (.r (q : ℝ)) })
  else if k = "phoebe_f2.STEP" then
    (parseFloat v).map (fun (q : ℚ) => { s with comp2 := psSet s.comp2 "syncpar.step" (.r (q : ℝ)) })
  else some s

/-- `phoebe_grb1.*` / `phoebe_grb2.*` (source lines 287-303), stored on
`gravb`. -/
noncomputable def applyGrb (s : PState) (k : String) (v : List Char) : Option PState :=
  if k = "phoebe_grb1.VAL" then
    some { s with comp1 := psSet s.comp1 "gravb" (.s v) }
  else if k = "phoebe_grb1.MAX" then
    (parseFloat v).map (fun (q : ℚ) => { s with comp1 := psSet s.comp1 "gravb.ulim" (.r (q : ℝ)) })
  else if k = "phoebe_grb1.MIN" then
    (parseFloat v).map (fun (q : ℚ) => { s with comp1 := psSet s.comp1 "gravb.llim" (.r (q : ℝ)) })
  else if k = "phoebe_grb1.STEP" then
    (parseFloat v).map (fun (q : ℚ) => { s with comp1 := psSet s.comp1 "gravb.step" (.r (q : ℝ)) })
  else if k = "phoebe_grb2.VAL" then
    some { s with comp2 := psSet s.comp2 "gravb" (.s v) }
  else if k = "phoebe_grb2.MAX" then
    (parseFloat v).map (fun (q : ℚ) => { s with comp2 := psSet s.comp2 "gravb.ulim" (.r (q : ℝ)) })
  else if k = "phoebe_grb2.MIN" then
    (parseFloat v).map (fun (q : ℚ) => { s with comp2 := psSet s.comp2 "gravb.llim" (.r (q : ℝ)) })
  else if k = "phoebe_grb2.STEP" then
    (parseFloat v).map (fun (q : ℚ) => { s with comp2 := psSet s.comp2 "gravb.step" (.r (q : ℝ)) })
  else some s

/-- `phoebe_pot1.*` / `phoebe_pot2.*` (source lines 305-321). -/
noncomputable def applyPot (s : PState) (k : String) (v : List Char) : Option PState :=
  if k = "phoebe_pot1.VAL" then
    some { s with comp1 := psSet s.comp1 "pot" (.s v) }
  else if k = "phoebe_pot1.MAX" then
    (parseFloat v).map (fun (q : ℚ) => { s with comp1 := psSet s.comp1 "pot.ulim" (.r (q : ℝ)) })
  else if k = "phoebe_pot1.MIN" then
    (parseFloat v).map (fun (q : ℚ) => { s with comp1 := psSet s.comp1 "pot.llim" (.r (q : ℝ)) })
  else if k = "phoebe_pot1.STEP" then
    (parseFloat v).map (fun (q : ℚ) => { s with comp1 := psSet s.comp1 "pot.step" (.r (q : ℝ)) })
  else if k = "phoebe_pot2.VAL" then
    some { s with comp2 := psSet s.comp2 "pot" (.s v) }
  else if k = "phoebe_pot2.MAX" then
    (parseFloat v).map (fun (q : ℚ) => { s with comp2 := psSet s.comp2 "pot.ulim" (.r (q : ℝ)) })
  else if k = "phoebe_pot2.MIN" then
    (parseFloat v).map (fun (q : ℚ) => { s with comp2 := psSet s.comp2 "pot.llim" (.r (q : ℝ)) })
  else if k = "phoebe_pot2.STEP" then
    (parseFloat v).map (fun (q : ℚ) => { s with comp2 := psSet s.comp2 "pot.step" (.r (q : ℝ)) })
  else some s

/-- `phoebe_teff1.*` / `phoebe_teff2.*` (source lines 323-339). -/
noncomputable def applyTeff (s : PState) (k : String) (v : List Char) : Option PState :=
  if k = "phoebe_teff1.VAL" then
    some { s with comp1 := psSet s.comp1 "teff" (.su v "K") }
  else if k = "phoebe_teff1.MAX" then
    (parseFloat v).map (fun (q : ℚ) => { s with comp1 := psSet s.comp1 "teff.ulim" (.r (q : ℝ)) })
  else if k = "phoebe_teff1.MIN" then
    (parseFloat v).map (fun (q : ℚ) => { s with comp1 := psSet s.comp1 "teff.llim" (.r (q : ℝ)) })
  else if k = "phoebe_teff1.STEP" then
    (parseFloat v).map (fun (q : ℚ) => { s with comp1 := psSet s.comp1 "teff.step" (.r (q : ℝ)) })
  else if k = "phoebe_teff2.VAL" then
    some { s with comp2 := psSet s.comp2 "teff" (.su v "K") }
  else if k = "phoebe_teff2.MAX" then
    (parseFloat v).map (fun (q : ℚ) => { s with comp2 := psSet s.comp2 "teff.ulim" (.r (q : ℝ)) })
  else if k = "phoebe_teff2.MIN" then
    (parseFloat v).map (fun (q : ℚ) => { s with comp2 := psSet s.comp2 "teff.llim" (.r (q : ℝ)) })
  else if k = "phoebe_teff2.STEP" then
    (parseFloat v).map (fun (q : ℚ) => { s with comp2 := psSet s.comp2 "teff.step" (.r (q : ℝ)) })
  else some s

/-- `phoebe_reffect_switch` (source lines 341-349): both branches set both
irradiator flags to `True`, because legacy always performs one reflection. -/
def applyReffect (s : PState) (k : String) (v : List Char) : Option PState :=
  if k = "phoebe_reffect_switch" then
    some (if pySlice v 1 (-2) = str "1"
          then { s with comp1 := psSet s.comp1 "irradiator" (.b true),
                        comp2 := psSet s.comp2 "irradiator" (.b true) }
          else { s with comp1 := psSet s.comp1 "irradiator" (.b true),
                        comp2 := psSet s.comp2 "irradiator" (.b true) })
  else some s

/-- `phoebe_met1.*` / `phoebe_met2.*` (source lines 352-368), stored on
`abun`. -/
noncomputable def applyMet (s : PState) (k : String) (v : List Char) : Option PState :=
  if k = "phoebe_met1.VAL" then
    some { s with comp1 := psSet s.comp1 "abun" (.s v) }
  else if k = "phoebe_met1.MAX" then
    (parseFloat v).map (fun (q : ℚ) => { s with comp1 := psSet s.comp1 "abun.ulim" (.r (q : ℝ)) })
  else if k = "phoebe_met1.MIN" then
    (parseFloat v).map (fun (q : ℚ) => { s with comp1 := psSet s.comp1 "abun.llim" (.r (q : ℝ)) })
  else if k = "phoebe_met1.STEP" then
    (parseFloat v).map (fun (q : ℚ) => { s with comp1 := psSet s.comp1 "abun.step" (.r (q : ℝ)) })
  else if k = "phoebe_met2.VAL" then
    some { s with comp2 := psSet s.comp2 "abun" (.s v) }
  else if k = "phoebe_met2.MAX" then
    (parseFloat v).map (fun (q : ℚ) => { s with comp2 := psSet s.comp2 "abun.ulim" (.r (q : ℝ)) })
  else if k = "phoebe_met2.MIN" then
    (parseFloat v).map (fun (q : ℚ) => { s with comp2 := psSet s.comp2 "abun.llim" (.r (q : ℝ)) })
  else if k = "phoebe_met2.STEP" then
    (parseFloat v).map (fun (q : ℚ) => { s with comp2 := psSet s.comp2 "abun.step" (.r (q : ℝ)) })
  else some s

/-- `phoebe_ld_model` (source lines 370-380). -/
def applyLdModel (s : PState) (k : String) (v : List Char) : Option PState :=
  if k = "phoebe_ld_model" then
    let w := pySlice v 2 (-2)
    some (if w = str "Logarithmic law" then
            { s with comp1 := psSet s.comp1 "ld_func" (.s (str "logarithmic")),
                     comp2 := psSet s.comp2 "ld_func" (.s (str "logarithmic")) }
          else if w = str "Linear cosine law" then
            { s with comp1 := psSet s.comp1 "ld_func" (.s (str "linear")),
                     comp2 := psSet s.comp2 "ld_func" (.s (str "linear")) }
          else if w = str "Square root law" then
            { s with comp1 := psSet s.comp1 "ld_func" (.s (str "square root")),
                     comp2 := psSet s.comp2 "ld_func" (.s (str "square root")) }
          else s)
  else some s

/-- Second part of the key dispatch (source lines 237-381): the component
scalars, switches and the limb-darkening model, in source order. -/
noncomputable def applyComp : PState → String → List Char → Option PState :=
  pseq applyAtm (pseq applyAlb (pseq applySync (pseq applyGrb (pseq applyPot
    (pseq applyTeff (pseq applyReffect (pseq applyMet applyLdModel)))))))

/-- `phoebe_ld_xbol1/2`, `phoebe_ld_ybol1/2` (source lines 383-390). -/
noncomputable def applyBol (s : PState) (k : String) (v : List Char) : Option PState :=
  if k = "phoebe_ld_xbol1" then
    (parseFloat v).map (fun (q : ℚ) => { s with ld_xbol1 := some (q : ℝ) })
  else if k = "phoebe_ld_xbol2" then
    (parseFloat v).map (fun (q : ℚ) => { s with ld_xbol2 := some (q : ℝ) })
  else if k = "phoebe_ld_ybol1" then
    (parseFloat v).map (fun (q : ℚ) => { s with ld_ybol1 := some (q : ℝ) })
  else if k = "phoebe_ld_ybol2" then
    (parseFloat v).map (fun (q : ℚ) => { s with ld_ybol2 := some (q : ℝ) })
  else some s

/-- `phoebe_lc_filename` (source lines 395-398): needs the staged dataset
index; both slot arrays receive the same reference name. -/
def applyLcFile (s : PState) (k : String) (v : List Char) : Option PState :=
  if k = "phoebe_lc_filename" then
    (if pySlice v 2 (-2) ≠ str "Undefined" then do
       let idx ← s.index
       let l1 ← pyUpdI s.lcdep1 idx (fun d => { d with ref := some (pySlice v 2 (-2)) })
       let l2 ← pyUpdI s.lcdep2 idx (fun d => { d with ref := some (pySlice v 2 (-2)) })
       some { s with lcdep1 := l1, lcdep2 := l2 }
     else some s)
  else some s

/-- `phoebe_ld_lcy1/2` and `phoebe_ld_lcx1/2.VAL` (source lines 400-409):
the `y` coefficient is staged, the `x` line completes the pair on the
indexed slot. -/
noncomputable def applyLdLc (s : PState) (k : String) (v : List Char) : Option PState :=
  if k = "phoebe_ld_lcy1" then
    (parseFloat (pySlice v 1 (-2))).map (fun (q : ℚ) => { s with ld_lcy1 := some (q : ℝ) })
  else if k = "phoebe_ld_lcy2" then
    (parseFloat (pySlice v 1 (-2))).map (fun (q : ℚ) => { s with ld_lcy2 := some (q : ℝ) })
  else if k = "phoebe_ld_lcx1.VAL" then do
    let x ← parseFloat (pySlice v 1 (-2))
    let y ← s.ld_lcy1
    let idx ← s.index
    let l1 ← pyUpdI s.lcdep1 idx (fun d => { d with ld_coeffs := some ((x : ℝ), y) })
    some { s with lcdep1 := l1 }
  else if k = "phoebe_ld_lcx2.VAL" then do
    let x ← parseFloat (pySlice v 1 (-2))
    let y ← s.ld_lcy2
    let idx ← s.index
    let l2 ← pyUpdI s.lcdep2 idx (fun d => { d with ld_coeffs := some ((x : ℝ), y) })
    some { s with lcdep2 := l2 }
  else some s

/-- `phoebe_lc_filter` (source lines 411-413). -/
def applyLcFilter (s : PState) (k : String) (v : List Char) : Option PState :=
  if k = "phoebe_lc_filter" then do
    let idx ← s.index
    let l1 ← pyUpdI s.lcdep1 idx (fun d => { d with passband := some v })
    let l2 ← pyUpdI s.lcdep2 idx (fun d => { d with passband := some v })
    some { s with lcdep1 := l1, lcdep2 := l2 }
  else some s

/-- `phoebe_hla.VAL`, `phoebe_cla.VAL`, `phoebe_el3.VAL` (source lines
415-421). -/
noncomputable def applyLum (s : PState) (k : String) (v : List Char) : Option PState :=
  if k = "phoebe_hla.VAL" then do
    let x ← parseFloat v
    let idx ← s.index
    let l1 ← pyUpdI s.lcdep1 idx (fun d => { d with pblum := some (x : ℝ) })
    some { s with lcdep1 := l1 }
  else if k = "phoebe_cla.VAL" then do
    let x ← parseFloat v
    let idx ← s.index
    let l2 ← pyUpdI s.lcdep2 idx (fun d => { d with pblum := some (x : ℝ) })
    some { s with lcdep2 := l2 }
  else if k = "phoebe_el3.VAL" then do
    let x ← parseFloat v
    let idx ← s.index
    let l1 ← pyUpdI s.lcdep1 idx (fun d => { d with l3 := some (x : ℝ) })
    let l2 ← pyUpdI s.lcdep2 idx (fun d => { d with l3 := some (x : ℝ) })
    some { s with lcdep1 := l1, lcdep2 := l2 }
  else some s

/-- `phoebe_ld_rvy1/2` and `phoebe_ld_rvx1/2` (source lines 424-433): the
`x` coefficient is staged; a `y` line reads the staged `x` (fatal if no `x`
has been recorded yet) and appends the pair. -/
noncomputable def applyLdRv (s : PState) (k : String) (v : List Char) : Option PState :=
  if k = "phoebe_ld_rvy1" then do
    let y ← parseFloat (pySlice v 1 (-2))
    let x ← s.ld_rvx1
    some { s with ld_coeffs1 := s.ld_coeffs1 ++ [(x, (y : ℝ))] }
  else if k = "phoebe_ld_rvy2" then do
    let y ← parseFloat (pySlice v 1 (-2))
    let x ← s.ld_rvx2
    some { s with ld_coeffs2 := s.ld_coeffs2 ++ [(x, (y : ℝ))] }
  else if k = "phoebe_ld_rvx1" then
    (parseFloat (pySlice v 1 (-2))).map (fun (q : ℚ) => { s with ld_rvx1 := some (q : ℝ) })
  else if k = "phoebe_ld_rvx2" then
    (parseFloat (pySlice v 1 (-2))).map (fun (q : ℚ) => { s with ld_rvx2 := some (q : ℝ) })
  else some s

/-- The flat RV accumulator keys (source lines 435-468): filter, dependency
tag with per-star counting, filename, identifier, independent-variable kind
and uncertainty/weight kind. -/
noncomputable def applyRvAccum (s : PState) (k : String) (v : List Char) : Option PState :=
  if k = "phoebe_rv_sigma" then
    (parseFloat v).map (fun (q : ℚ) => { s with rv_pbweight := s.rv_pbweight ++ [(q : ℝ)] })
  else if k = "phoebe_rv_filter" then
    some { s with rv_pb := s.rv_pb ++ [v] }
  else if k = "phoebe_rv_dep" then
    some (if pySlice v 2 (-2) = str "Primary RV"
          then { s with rv_dep := s.rv_dep ++ [pySlice v 2 (-2)], prim_rv := s.prim_rv + 1 }
          else { s with rv_dep := s.rv_dep ++ [pySlice v 2 (-2)], sec_rv := s.sec_rv + 1 })
  else if k = "phoebe_rv_filename" then
    some { s with rv_file := s.rv_file ++ [pySlice v 2 (-2)] }
  else if k = "phoebe_rv_id" then
    some { s with rvname := s.rvname ++ [v] }
  else if k = "phoebe_rv_indep" then
    some { s with rvtime := s.rvtime ++
      [if pySlice v 2 6 = str "Time" then str "time" else str "phase"] }
  else if k = "phoebe_rv_indweight" then
    some { s with rvsigma := s.rvsigma ++
      [if pySlice v 11 (-2) = str "deviation" then str "sigma"
       else if pySlice v 11 (-2) = str "weight" then str "weight"
       else str "undefined"] }
  else some s

/-- Third part of the key dispatch (source lines 383-468): the block of
independent `if` statements, in source order. -/
noncomputable def applyData : PState → String → List Char → Option PState :=
  pseq applyBol (pseq applyLcFile (pseq applyLdLc (pseq applyLcFilter
    (pseq applyLum (pseq applyLdRv applyRvAccum)))))

/-- One iteration of the line loop (source lines 71-119 plus the key
dispatch): comment skip, tokenisation (a failed split is logged and
skipped), dataset-index extraction, value normalisation, key
whitespace-stripping (fatal on an empty key) and dispatch.  An empty line
cannot come out of `readlines`; Python would raise `IndexError` on `l[0]`,
hence `none`. -/
noncomputable def stepLine (s : PState) (l : List Char) : Option PState :=
  match l with
  | [] => none
  | c :: _ =>
    if c = '#' then some s
    else
      match tokenize l with
      | none => some s
      | some (k0, v0) =>
        let s1 := match findBr k0 with
                  | some d => { s with index := some ((d.toNat : Int) - 48 - 1) }
                  | none => s
        let v1 := normalizeVal v0
        match stripKey (remBr k0) with
        | none => none
        | some kf =>
          match applyOrbit s1 (String.mk kf) v1 with
          | none => none
          | some s2 =>
            match applyComp s2 (String.mk kf) v1 with
            | none => none
            | some s3 => applyData s3 (String.mk kf) v1

/-- The dispatched key of a line, when the line is neither a comment nor
skipped by the tokenizer: the same pipeline as `stepLine` without the state.
-/
def keyOfLine (l : List Char) : Option String :=
  match l with
  | [] => none
  | c :: _ =>
    if c = '#' then none
    else
      match tokenize l with
      | none => none
      | some (k0, _) => (stripKey (remBr k0)).map String.mk

/-- The `for l in lines` loop. -/
noncomputable def runLines (s : PState) : List (List Char) → Option PState
  | [] => some s
  | l :: ls =>
    match stepLine s l with
    | none => none
    | some s' => runLines s' ls

/-- The post-scan light-curve copy loop (source lines 477-486):
`for i in range(lcno)`, copying atmosphere, albedo and limb-darkening law
from each component onto its light-curve dependency records and forcing
`lcdep2[i]['ref'] = lcdep1[i]['ref']`.  The first argument is the number of
iterations still to run, the second the current loop index. -/
def lcCopy (c1 c2 : ParamSet) :
    Nat → Nat → List LCDep → List LCDep → Option (List LCDep × List LCDep)
  | 0, _, l1, l2 => some (l1, l2)
  | rem + 1, i, l1, l2 => do
    let d1 ← pyGetN l1 i
    let d1 := { d1 with atm := psGet c1 "atm", alb := psGet c1 "alb",
                        ld_func := psGet c1 "ld_func" }
    let l1 ← pySetN l1 i d1
    let d2 ← pyGetN l2 i
    let d2 := { d2 with atm := psGet c2 "atm", alb := psGet c2 "alb",
                        ld_func := psGet c2 "ld_func", ref := d1.ref }
    let l2 ← pySetN l2 i d2
    lcCopy c1 c2 rem (i + 1) l1 l2

/-- Construction of the primary-star observation record for RV slot `i`
(source lines 512-544).  Python reads `rvsigma[i]`, `rvtime[i]`,
`rv_pbweight[i]` and `rvname[i]` inside the branches; every branch reads
all of them, so they are bound up front. -/
noncomputable def mkObs1 (st : PState) (fs : FS) (i j : Nat) (file : List Char) :
    Option RVObs := do
  let sk ← pyGetN st.rvsigma i
  let tk ← pyGetN st.rvtime i
  let w ← pyGetN st.rv_pbweight i
  let nm ← pyGetN st.rvname i
  if sk = str "undefined" then
    if tk = str "time" then do
      let (a, b) ← loadtxt2 fs file
      some { time := some a, rv := some b, columns := [tk, str "rv"],
             ref := str "primaryrv_" ++ natChars j, filename := file,
             statweight := w, user_components := nm }
    else do
      let (a, b) ← loadtxt2 fs file
      some { phase := some a, rv := some b, columns := [tk, str "rv"],
             ref := str "primaryrv_" ++ natChars j, filename := file,
             statweight := w, user_components := nm }
  else
    if tk = str "time" then
      if sk = str "sigma" then do
        let (a, b, c) ← loadtxt3 fs file
        some { time := some a, rv := some b, sigma := some c,
               columns := [tk, str "rv", sk],
               ref := str "primaryrv_" ++ natChars j, filename := file,
               statweight := w, user_components := nm }
      else do
        let (a, b, c) ← loadtxt3 fs file
        some { time := some a, rv := some b, weight := some c,
               columns := [tk, str "rv", sk],
               ref := str "primaryrv_" ++ natChars j, filename := file,
               statweight := w, user_components := nm }
    else
      if sk = str "weight" then do
        let (a, b, c) ← loadtxt3 fs file
        some { phase := some a, rv := some b, weight := some c,
               columns := [tk, str "rv", sk],
               ref := str "primaryrv_" ++ natChars j, filename := file,
               statweight := w, user_components := nm }
      else do
        let (a, b, c) ← loadtxt3 fs file
        some { phase := some a, rv := some b, sigma := some c,
               columns := [tk, str "rv", sk],
               ref := str "primaryrv_" ++ natChars j, filename := file,
               statweight := w, user_components := nm }

/-- Construction of the secondary-star observation record for RV slot `i`
(source lines 556-588); identical to `mkObs1` apart from the reference
prefix. -/
noncomputable def mkObs2 (st : PState) (fs : FS) (i k : Nat) (file : List Char) :
    Option RVObs := do
  let sk ← pyGetN st.rvsigma i
  let tk ← pyGetN st.rvtime i
  let w ← pyGetN st.rv_pbweight i
  let nm ← pyGetN st.rvname i
  if sk = str "undefined" then
    if tk = str "time" then do
      let (a, b) ← loadtxt2 fs file
      some { time := some a, rv := some b, columns := [tk, str "rv"],
             ref := str "secondaryrv_" ++ natChars k, filename := file,
             statweight := w, user_components := nm }
    else do
      let (a, b) ← loadtxt2 fs file
      some { phase := some a, rv := some b, columns := [tk, str "rv"],
             ref := str "secondaryrv_" ++ natChars k, filename := file,
             statweight := w, user_components := nm }
  else
    if tk = str "time" then
      if sk = str "sigma" then do
        let (a, b, c) ← loadtxt3 fs file
        some { time := some a, rv := some b, sigma := some c,
               columns := [tk, str "rv", sk],
               ref := str "secondaryrv_" ++ natChars k, filename := file,
               statweight := w, user_components := nm }
      else do
        let (a, b, c) ← loadtxt3 fs file
        some { time := some a, rv := some b, weight := some c,
               columns := [tk, str "rv", sk],
               ref := str "secondaryrv_" ++ natChars k, filename := file,
               statweight := w, user_components := nm }
    else
      if sk = str "weight" then do
        let (a, b, c) ← loadtxt3 fs file
        some { phase := some a, rv := some b, weight := some c,
               columns := [tk, str "rv", sk],
               ref := str "secondaryrv_" ++ natChars k, filename := file,
               statweight := w, user_components := nm }
      else do
        let (a, b, c) ← loadtxt3 fs file
        some { phase := some a, rv := some b, sigma := some c,
               columns := [tk, str "rv", sk],
               ref := str "secondaryrv_" ++ natChars k, filename := file,
               statweight := w, user_components := nm }

/-- The RV assembler loop (source lines 500-591): `for i in range(rvno)`,
with per-star running indices `j` (primary) and `k` (secondary).  The dead
observation counters `l` and `m` of the source are never read and are
omitted.  The first argument is the number of iterations still to run. -/
noncomputable def rvLoop (c1 c2 : ParamSet) (st : PState) (fs : FS) :
    Nat → Nat → Nat → Nat → List RVDep → List RVDep → List RVObs → List RVObs →
    Option (List RVDep × List RVDep × List RVObs × List RVObs)
  | 0, _, _, _, r1, r2, o1, o2 => some (r1, r2, o1, o2)
  | rem + 1, i, j, k, r1, r2, o1, o2 => do
    let dep ← pyGetN st.rv_dep i
    if dep = str "Primary RV" then do
      let lc ← pyGetN st.ld_coeffs1 i
      let pb ← pyGetN st.rv_pb i
      let d ← pyGetN r1 j
      let d := { d with ld_coeffs := some lc, passband := some pb,
                        ref := some (str "primaryrv_" ++ natChars j),
                        atm := psGet c1 "atm", alb := psGet c1 "alb",
                        ld_func := psGet c1 "ld_func" }
      let r1 ← pySetN r1 j d
      let file ← pyGetN st.rv_file i
      if file ≠ str "Undefined" then do
        let o ← mkObs1 st fs i j file
        rvLoop c1 c2 st fs rem (i + 1) (j + 1) k r1 r2 (o1 ++ [o]) o2
      else
        rvLoop c1 c2 st fs rem (i + 1) (j + 1) k r1 r2 o1 o2
    else do
      let lc ← pyGetN st.ld_coeffs2 i
      let pb ← pyGetN st.rv_pb i
      let d ← pyGetN r2 k
      let d := { d with ld_coeffs := some lc, passband := some pb,
                        atm := psGet c2 "atm", alb := psGet c2 "alb",
                        ld_func := psGet c2 "ld_func",
                        ref := some (str "secondaryrv_" ++ natChars k) }
      let r2 ← pySetN r2 k d
      let file ← pyGetN st.rv_file i
      if file ≠ str "Undefined" then do
        let o ← mkObs2 st fs i k file
        rvLoop c1 c2 st fs rem (i + 1) j (k + 1) r1 r2 o1 (o2 ++ [o])
      else
        rvLoop c1 c2 st fs rem (i + 1) j (k + 1) r1 r2 o1 o2

/-- The value returned by a completed parse: the default
`return body1, body2, orbit` shape of the source (`create_body` and
`create_bundle` hand the same records to external collaborators and are out
of scope).  `final` additionally exposes the loop state so that
specifications can refer to the accumulated counts. -/
structure PResult where
  comp1 : ParamSet
  comp2 : ParamSet
  orbit : ParamSet
  lcdep1 : List LCDep
  lcdep2 : List LCDep
  rvdep1 : List RVDep
  rvdep2 : List RVDep
  obsrv1 : List RVObs
  obsrv2 : List RVObs
  final : PState

/-- The post-scan reduction (source lines 470-600): `long_an`, the
bolometric coefficient pairs (fatal if any `phoebe_ld_[xy]bol` key was
missing), the light-curve copy loop, the per-star RV dependency allocation
and assembler loop, and the final orbit labels. -/
noncomputable def postProcess (fs : FS) (s : PState) : Option PResult := do
  let orbit0 := psSet s.orbit "long_an" (.r 0)
  let x1 ← s.ld_xbol1
  let y1 ← s.ld_ybol1
  let x2 ← s.ld_xbol2
  let y2 ← s.ld_ybol2
  let comp1 := psSet s.comp1 "ld_coeffs" (.pr x1 y1)
  let comp2 := psSet s.comp2 "ld_coeffs" (.pr x2 y2)
  let lcno ← s.lcno
  let (lcd1, lcd2) ← lcCopy comp1 comp2 lcno.toNat 0 s.lcdep1 s.lcdep2
  let rvno ← s.rvno
  let (rvd1, rvd2, o1, o2) ← rvLoop comp1 comp2 s fs rvno.toNat 0 0 0
      (List.replicate s.prim_rv {}) (List.replicate s.sec_rv {}) [] []
  let lbl1 ← psGet comp1 "label"
  let lbl2 ← psGet comp2 "label"
  let orbit1 := psSet orbit0 "c1label" lbl1
  let orbit2 := psSet orbit1 "c2label" lbl2
  let orbit3 := psSet orbit2 "label" (.s (str "myorbit"))
  let orbit4 := psSet orbit3 "t0type" (.s (str "superior conjunction"))
  some { comp1 := comp1, comp2 := comp2, orbit := orbit4,
         lcdep1 := lcd1, lcdep2 := lcd2, rvdep1 := rvd1, rvdep2 := rvd2,
         obsrv1 := o1, obsrv2 := o2, final := s }

/-- `legacy_to_phoebe(inputfile)`: run the line loop over the file contents
and reduce.  `lines` are the file lines as returned by `readlines` (each
with its trailing newline); `fs` is the observation-file collaborator. -/
noncomputable def legacy_to_phoebe (lines : List (List Char)) (fs : FS) :
    Option PResult :=
  match runLines initState lines with
  | none => none
  | some s => postProcess fs s

/-- `from_supconj_to_perpass(orbit)` (source lines 652-672) on the four
orbit fields it reads — epoch at superior conjunction, phase shift, period
and argument of periastron in radians — returning the new `t0`:
`t0 + (phshift - 0.25 + per0/(2*np.pi))*P`. -/
noncomputable def from_supconj_to_perpass (t_supconj phshift P per0 : ℝ) : ℝ :=
  t_supconj + (phshift - 0.25 + per0 / (2 * Real.pi)) * P

/-! ## Concrete inputs and sample values used by the closed-form theorems -/

/-- Column-layout contract of an RV observation record built from a file whose
numeric columns are `cols`, given the sigma/weight switch `sk` and the
independent-variable switch `tk` recorded for its slot: two columns when the
switch is `undefined` and three otherwise, the second column always the radial
velocity, the first bound as time or phase according to `tk`, and the third
bound as an uncertainty under `sigma` and as a weight under `weight`. -/
def ObsColumnSpec (sk tk : List Char) (cols : List (List ℝ)) (obs : RVObs) : Prop :=
  (sk = str "undefined" →
    cols.length = 2 ∧ obs.sigma = none ∧ obs.weight = none ∧ obs.rv = cols.get? 1 ∧
    (tk = str "time" → obs.time = cols.get? 0 ∧ obs.phase = none) ∧
    (tk ≠ str "time" → obs.phase = cols.get? 0 ∧ obs.time = none)) ∧
  (sk ≠ str "undefined" → cols.length = 3 ∧ obs.rv = cols.get? 1 ∧
    (tk = str "time" → obs.time = cols.get? 0 ∧ obs.phase = none) ∧
    (tk ≠ str "time" → obs.phase = cols.get? 0 ∧ obs.time = none)) ∧
  (sk = str "sigma" → obs.sigma = cols.get? 2 ∧ obs.weight = none) ∧
  (sk = str "weight" → obs.weight = cols.get? 2 ∧ obs.sigma = none)

/-- An observation-file collaborator with no readable files. -/
def noFiles : FS := fun _ => none

/-- A minimal complete legacy file: no light curves, no radial velocities,
and the four mandatory bolometric limb-darkening coefficients. -/
def fileMinimal : List (List Char) :=
  [str "phoebe_lcno = 0\n",
   str "phoebe_rvno = 0\n",
   str "phoebe_ld_xbol1 = 0.5\n",
   str "phoebe_ld_ybol1 = 0.5\n",
   str "phoebe_ld_xbol2 = 0.5\n",
   str "phoebe_ld_ybol2 = 0.5\n"]

/-- A legacy file declaring exactly one light curve. -/
def fileOneLC : List (List Char) :=
  [str "phoebe_lcno = 1\n",
   str "phoebe_rvno = 0\n",
   str "phoebe_ld_xbol1 = 0.5\n",
   str "phoebe_ld_ybol1 = 0.5\n",
   str "phoebe_ld_xbol2 = 0.5\n",
   str "phoebe_ld_ybol2 = 0.5\n",
   str "phoebe_lc_filename[1] = \"mylc.dat\"\n"]

/-- A legacy file with two RV entries, both tagged `Primary RV`. -/
def fileTwoPrimaryRV : List (List Char) :=
  [str "phoebe_lcno = 0\n",
   str "phoebe_rvno = 2\n",
   str "phoebe_ld_xbol1 = 0.5\n",
   str "phoebe_ld_ybol1 = 0.5\n",
   str "phoebe_ld_xbol2 = 0.5\n",
   str "phoebe_ld_ybol2 = 0.5\n",
   str "phoebe_rv_dep[1] = \"Primary RV\"\n",
   str "phoebe_ld_rvx1 = 0.55\n",
   str "phoebe_ld_rvy1 = 0.55\n",
   str "phoebe_rv_filter[1] = \"Johnson:V\"\n",
   str "phoebe_rv_filename[1] = \"Undefined\"\n",
   str "phoebe_rv_dep[2] = \"Primary RV\"\n",
   str "phoebe_ld_rvx1 = 0.60\n",
   str "phoebe_ld_rvy1 = 0.60\n",
   str "phoebe_rv_filter[2] = \"Johnson:V\"\n",
   str "phoebe_rv_filename[2] = \"Undefined\"\n"]

/-- Beginning of a valid file between whose halves a malformed line is spliced. -/
def fileSplicePre : List (List Char) := [str "phoebe_lcno = 1\n"]

/-- End of a valid file between whose halves a malformed line is spliced. -/
def fileSplicePost : List (List Char) := [str "phoebe_rvno = 0\n"]

/-- Default result record, used only to extract the value of a parse that is
separately shown to succeed. -/
noncomputable def emptyResult : PResult :=
  { comp1 := [], comp2 := [], orbit := [], lcdep1 := [], lcdep2 := [],
    rvdep1 := [], rvdep2 := [], obsrv1 := [], obsrv2 := [], final := initState }

/-- Default observation record (all structure defaults). -/
noncomputable def emptyObs : RVObs := {}

/-- The parse result of the minimal file. -/
noncomputable def resMinimal : PResult :=
  (legacy_to_phoebe fileMinimal noFiles).getD emptyResult

/-- The parse result of the one-light-curve file. -/
noncomputable def resOneLC : PResult :=
  (legacy_to_phoebe fileOneLC noFiles).getD emptyResult

/-- The parse result of the two-primary-RV file. -/
noncomputable def resTwoPrimaryRV : PResult :=
  (legacy_to_phoebe fileTwoPrimaryRV noFiles).getD emptyResult

/-- The state reached from the initial state by a `phoebe_perr0.MAX` line
with value 90. -/
noncomputable def perr0State : PState :=
  (applyPerr0 initState "phoebe_perr0.MAX" (str " 90\n")).getD initState

/-- A state whose RV bookkeeping lists describe one observation slot:
no uncertainty column, independent variable `time`. -/
noncomputable def obsState : PState :=
  { initState with rvsigma := [str "undefined"], rvtime := [str "time"],
                   rv_pbweight := [1], rvname := [str "star"] }

/-- An observation-file collaborator exposing one two-column file. -/
noncomputable def obsFS : FS :=
  fun f => if f = str "rv.dat" then some [[1, 2], [3, 4]] else none

/-- The observation record built from `obsState` for the file `rv.dat`. -/
noncomputable def obsSample : RVObs :=
  (mkObs1 obsState obsFS 0 0 (str "rv.dat")).getD emptyObs


/-! ## Lemmas about the collaborator records and Python list primitives -/

theorem psGet_psSet_same (p : ParamSet) (k : String) (v : PVal) :
    psGet (psSet p k v) k = some v := by
  induction p with
  | nil => simp [psSet, psGet]
  | cons e t ih =>
    by_cases hk : e.1 = k
    · simp [psSet, hk, psGet]
    · simp [psSet, hk, psGet, ih]

theorem psGet_psSet_ne {k' k : String} (h : k' ≠ k) (p : ParamSet) (v : PVal) :
    psGet (psSet p k v) k' = psGet p k' := by
  have h' : k ≠ k' := Ne.symm h
  induction p with
  | nil => simp [psSet, psGet, h']
  | cons e t ih =>
    by_cases hk : e.1 = k
    · simp [psSet, hk, psGet, h']
    · by_cases hk' : e.1 = k'
      · simp [psSet, hk, psGet, hk', h]
      · simp [psSet, hk, psGet, hk', ih]

theorem pySetN_length {l : List α} {i : Nat} {v : α} {l' : List α}
    (h : pySetN l i v = some l') : l'.length = l.length := by
  unfold pySetN at h
  split_ifs at h
  obtain rfl := Option.some.inj h
  simp

theorem pyUpdI_length {l : List α} {i : Int} {f : α → α} {l' : List α}
    (h : pyUpdI l i f = some l') : l'.length = l.length := by
  unfold pyUpdI at h
  split at h
  · cases h
  · split at h
    · cases h
    · obtain rfl := Option.some.inj h
      simp

theorem pySetN_get?_same {l : List α} {i : Nat} {v : α} {l' : List α}
    (h : pySetN l i v = some l') : l'.get? i = some v := by
  unfold pySetN at h
  split_ifs at h with hi
  obtain rfl := Option.some.inj h
  exact List.get?_set_eq_of_lt v hi

theorem pySetN_get?_ne {l : List α} {i : Nat} {v : α} {l' : List α}
    (h : pySetN l i v = some l') {j : Nat} (hj : j ≠ i) : l'.get? j = l.get? j := by
  unfold pySetN at h
  split_ifs at h
  obtain rfl := Option.some.inj h
  exact List.get?_set_ne v l (Ne.symm hj)

/-! ## The loop invariant maintained by every line of the file -/

/-- Facts preserved by every successfully processed line: the two
light-curve slot arrays stay index-parallel with length `lcno`, the per-star
RV counters partition the accumulated dependency tags, and the component
labels keep their construction-time values. -/
def Good (s : PState) : Prop :=
  s.lcdep1.length = s.lcdep2.length ∧
  (∀ n : Int, s.lcno = some n → s.lcdep1.length = n.toNat) ∧
  s.prim_rv + s.sec_rv = s.rv_dep.length ∧
  psGet s.comp1 "label" = some (.s (str "myprimary")) ∧
  psGet s.comp2 "label" = some (.s (str "mysecondary"))

theorem initState_good : Good initState :=
  ⟨rfl, fun _ hn => Option.noConfusion hn, rfl, rfl, rfl⟩
/-- The frame property shared by all key routers: a successful step
preserves the loop invariant, and leaves the staged `ld_rvx1` (resp.
`ld_rvx2`) slot alone unless the line's key is `phoebe_ld_rvx1` (resp.
`phoebe_ld_rvx2`). -/
def Frame (f : PState → String → List Char → Option PState) : Prop :=
  ∀ s k v s', f s k v = some s' →
    (Good s → Good s') ∧ (k ≠ "phoebe_ld_rvx1" → s'.ld_rvx1 = s.ld_rvx1) ∧
    (k ≠ "phoebe_ld_rvx2" → s'.ld_rvx2 = s.ld_rvx2)

theorem frame_pseq {f g : PState → String → List Char → Option PState}
    (hf : Frame f) (hg : Frame g) : Frame (pseq f g) := by
  intro s k v s' h
  unfold pseq at h
  cases hf1 : f s k v with
  | none => rw [hf1] at h; cases h
  | some s1 =>
    rw [hf1] at h
    obtain ⟨g1, g2, g2b⟩ := hf s k v s1 hf1
    obtain ⟨g3, g4, g4b⟩ := hg s1 k v s' h
    exact ⟨fun hg0 => g3 (g1 hg0), fun hk => (g4 hk).trans (g2 hk),
           fun hk => (g4b hk).trans (g2b hk)⟩

theorem frame_applyCounts : Frame applyCounts := by
  intro s k v s' h
  unfold applyCounts at h
  split_ifs at h
  all_goals try (simp only [Option.map_eq_some'] at h; obtain ⟨q, hq, h⟩ := h)
  all_goals (first | subst h | (obtain rfl := Option.some.inj h))
  · refine ⟨fun hg => ⟨by simp, ?_, hg.2.2.1, hg.2.2.2.1, hg.2.2.2.2⟩, fun _ => rfl, fun _ => rfl⟩
    intro m hm
    obtain rfl := Option.some.inj hm
    simp
  · exact ⟨fun hg => hg, fun _ => rfl, fun _ => rfl⟩
  · exact ⟨fun hg => hg, fun _ => rfl, fun _ => rfl⟩

theorem frame_applyDpdt : Frame applyDpdt := by
  intro s k v s' h
  unfold applyDpdt at h
  split_ifs at h
  all_goals try (simp only [Option.map_eq_some'] at h; obtain ⟨q, hq, h⟩ := h)
  all_goals (first | subst h | (obtain rfl := Option.some.inj h))
  all_goals exact ⟨fun hg => hg, fun _ => rfl, fun _ => rfl⟩

theorem frame_applyDperdt : Frame applyDperdt := by
  intro s k v s' h
  unfold applyDperdt at h
  split_ifs at h
  all_goals try (simp only [Option.map_eq_some'] at h; obtain ⟨q, hq, h⟩ := h)
  all_goals (first | subst h | (obtain rfl := Option.some.inj h))
  all_goals exact ⟨fun hg => hg, fun _ => rfl, fun _ => rfl⟩

theorem frame_applyEcc : Frame applyEcc := by
  intro s k v s' h
  unfold applyEcc at h
  split_ifs at h
  all_goals try (simp only [Option.map_eq_some'] at h; obtain ⟨q, hq, h⟩ := h)
  all_goals (first | subst h | (obtain rfl := Option.some.inj h))
  all_goals exact ⟨fun hg => hg, fun _ => rfl, fun _ => rfl⟩

theorem frame_applyHjd0 : Frame applyHjd0 := by
  intro s k v s' h
  unfold applyHjd0 at h
  split_ifs at h
  all_goals try (simp only [Option.map_eq_some'] at h; obtain ⟨q, hq, h⟩ := h)
  all_goals (first | subst h | (obtain rfl := Option.some.inj h))
  all_goals exact ⟨fun hg => hg, fun _ => rfl, fun _ => rfl⟩

theorem frame_applyIncl : Frame applyIncl := by
  intro s k v s' h
  unfold applyIncl at h
  split_ifs at h
  all_goals try (simp only [Option.map_eq_some'] at h; obtain ⟨q, hq, h⟩ := h)
  all_goals (first | subst h | (obtain rfl := Option.some.inj h))
  all_goals exact ⟨fun hg => hg, fun _ => rfl, fun _ => rfl⟩

theorem frame_applyPeriod : Frame applyPeriod := by
  intro s k v s' h
  unfold applyPeriod at h
  split_ifs at h
  all_goals try (simp only [Option.map_eq_some'] at h; obtain ⟨q, hq, h⟩ := h)
  all_goals (first | subst h | (obtain rfl := Option.some.inj h))
  all_goals exact ⟨fun hg => hg, fun _ => rfl, fun _ => rfl⟩

theorem frame_applyPerr0 : Frame applyPerr0 := by
  intro s k v s' h
  unfold applyPerr0 at h
  split_ifs at h
  all_goals try (simp only [Option.map_eq_some'] at h; obtain ⟨q, hq, h⟩ := h)
  all_goals (first | subst h | (obtain rfl := Option.some.inj h))
  all_goals exact ⟨fun hg => hg, fun _ => rfl, fun _ => rfl⟩

theorem frame_applyPshift : Frame applyPshift := by
  intro s k v s' h
  unfold applyPshift at h
  split_ifs at h
  all_goals try (simp only [Option.map_eq_some'] at h; obtain ⟨q, hq, h⟩ := h)
  all_goals (first | subst h | (obtain rfl := Option.some.inj h))
  all_goals exact ⟨fun hg => hg, fun _ => rfl, fun _ => rfl⟩

theorem frame_applyRm : Frame applyRm := by
  intro s k v s' h
  unfold applyRm at h
  split_ifs at h
  all_goals try (simp only [Option.map_eq_some'] at h; obtain ⟨q, hq, h⟩ := h)
  all_goals (first | subst h | (obtain rfl := Option.some.inj h))
  all_goals exact ⟨fun hg => hg, fun _ => rfl, fun _ => rfl⟩

theorem frame_applyVga : Frame applyVga := by
  intro s k v s' h
  unfold applyVga at h
  split_ifs at h
  all_goals try (simp only [Option.map_eq_some'] at h; obtain ⟨q, hq, h⟩ := h)
  all_goals (first | subst h | (obtain rfl := Option.some.inj h))
  all_goals exact ⟨fun hg => hg, fun _ => rfl, fun _ => rfl⟩

theorem frame_applySma : Frame applySma := by
  intro s k v s' h
  unfold applySma at h
  split_ifs at h
  all_goals try (simp only [Option.map_eq_some'] at h; obtain ⟨q, hq, h⟩ := h)
  all_goals (first | subst h | (obtain rfl := Option.some.inj h))
  all_goals exact ⟨fun hg => hg, fun _ => rfl, fun _ => rfl⟩

theorem frame_applyMesh : Frame applyMesh := by
  intro s k v s' h
  unfold applyMesh at h
  split_ifs at h
  all_goals try (simp only [Option.map_eq_some'] at h; obtain ⟨q, hq, h⟩ := h)
  all_goals (first | subst h | (obtain rfl := Option.some.inj h))
  all_goals exact ⟨fun hg => hg, fun _ => rfl, fun _ => rfl⟩

theorem frame_applyBol : Frame applyBol := by
  intro s k v s' h
  unfold applyBol at h
  split_ifs at h
  all_goals try (simp only [Option.map_eq_some'] at h; obtain ⟨q, hq, h⟩ := h)
  all_goals (first | subst h | (obtain rfl := Option.some.inj h))
  all_goals exact ⟨fun hg => hg, fun _ => rfl, fun _ => rfl⟩

theorem frame_applyAtm : Frame applyAtm := by
  intro s k v s' h
  unfold applyAtm at h
  split_ifs at h
  all_goals try (simp only [Option.map_eq_some'] at h; obtain ⟨q, hq, h⟩ := h)
  all_goals (first | subst h | (obtain rfl := Option.some.inj h))
  all_goals
    (first
      | exact ⟨fun hg => hg, fun _ => rfl, fun _ => rfl⟩
      | exact ⟨fun hg => ⟨hg.1, hg.2.1, hg.2.2.1,
          (psGet_psSet_ne (by decide) _ _).trans hg.2.2.2.1, hg.2.2.2.2⟩, fun _ => rfl, fun _ => rfl⟩
      | exact ⟨fun hg => ⟨hg.1, hg.2.1, hg.2.2.1, hg.2.2.2.1,
          (psGet_psSet_ne (by decide) _ _).trans hg.2.2.2.2⟩, fun _ => rfl, fun _ => rfl⟩
      | exact ⟨fun hg => ⟨hg.1, hg.2.1, hg.2.2.1,
          (psGet_psSet_ne (by decide) _ _).trans hg.2.2.2.1,
          (psGet_psSet_ne (by decide) _ _).trans hg.2.2.2.2⟩, fun _ => rfl, fun _ => rfl⟩)

theorem frame_applyAlb : Frame applyAlb := by
  intro s k v s' h
  unfold applyAlb at h
  split_ifs at h
  all_goals try (simp only [Option.map_eq_some'] at h; obtain ⟨q, hq, h⟩ := h)
  all_goals (first | subst h | (obtain rfl := Option.some.inj h))
  all_goals
    (first
      | exact ⟨fun hg => hg, fun _ => rfl, fun _ => rfl⟩
      | exact ⟨fun hg => ⟨hg.1, hg.2.1, hg.2.2.1,
          (psGet_psSet_ne (by decide) _ _).trans hg.2.2.2.1, hg.2.2.2.2⟩, fun _ => rfl, fun _ => rfl⟩
      | exact ⟨fun hg => ⟨hg.1, hg.2.1, hg.2.2.1, hg.2.2.2.1,
          (psGet_psSet_ne (by decide) _ _).trans hg.2.2.2.2⟩, fun _ => rfl, fun _ => rfl⟩
      | exact ⟨fun hg => ⟨hg.1, hg.2.1, hg.2.2.1,
          (psGet_psSet_ne (by decide) _ _).trans hg.2.2.2.1,
          (psGet_psSet_ne (by decide) _ _).trans hg.2.2.2.2⟩, fun _ => rfl, fun _ => rfl⟩)

theorem frame_applySync : Frame applySync := by
  intro s k v s' h
  unfold applySync at h
  split_ifs at h
  all_goals try (simp only [Option.map_eq_some'] at h; obtain ⟨q, hq, h⟩ := h)
  all_goals (first | subst h | (obtain rfl := Option.some.inj h))
  all_goals
    (first
      | exact ⟨fun hg => hg, fun _ => rfl, fun _ => rfl⟩
      | exact ⟨fun hg => ⟨hg.1, hg.2.1, hg.2.2.1,
          (psGet_psSet_ne (by decide) _ _).trans hg.2.2.2.1, hg.2.2.2.2⟩, fun _ => rfl, fun _ => rfl⟩
      | exact ⟨fun hg => ⟨hg.1, hg.2.1, hg.2.2.1, hg.2.2.2.1,
          (psGet_psSet_ne (by decide) _ _).trans hg.2.2.2.2⟩, fun _ => rfl, fun _ => rfl⟩
      | exact ⟨fun hg => ⟨hg.1, hg.2.1, hg.2.2.1,
          (psGet_psSet_ne (by decide) _ _).trans hg.2.2.2.1,
          (psGet_psSet_ne (by decide) _ _).trans hg.2.2.2.2⟩, fun _ => rfl, fun _ => rfl⟩)

theorem frame_applyGrb : Frame applyGrb := by
  intro s k v s' h
  unfold applyGrb at h
  split_ifs at h
  all_goals try (simp only [Option.map_eq_some'] at h; obtain ⟨q, hq, h⟩ := h)
  all_goals (first | subst h | (obtain rfl := Option.some.inj h))
  all_goals
    (first
      | exact ⟨fun hg => hg, fun _ => rfl, fun _ => rfl⟩
      | exact ⟨fun hg => ⟨hg.1, hg.2.1, hg.2.2.1,
          (psGet_psSet_ne (by decide) _ _).trans hg.2.2.2.1, hg.2.2.2.2⟩, fun _ => rfl, fun _ => rfl⟩
      | exact ⟨fun hg => ⟨hg.1, hg.2.1, hg.2.2.1, hg.2.2.2.1,
          (psGet_psSet_ne (by decide) _ _).trans hg.2.2.2.2⟩, fun _ => rfl, fun _ => rfl⟩
      | exact ⟨fun hg => ⟨hg.1, hg.2.1, hg.2.2.1,
          (psGet_psSet_ne (by decide) _ _).trans hg.2.2.2.1,
          (psGet_psSet_ne (by decide) _ _).trans hg.2.2.2.2⟩, fun _ => rfl, fun _ => rfl⟩)

theorem frame_applyPot : Frame applyPot := by
  intro s k v s' h
  unfold applyPot at h
  split_ifs at h
  all_goals try (simp only [Option.map_eq_some'] at h; obtain ⟨q, hq, h⟩ := h)
  all_goals (first | subst h | (obtain rfl := Option.some.inj h))
  all_goals
    (first
      | exact ⟨fun hg => hg, fun _ => rfl, fun _ => rfl⟩
      | exact ⟨fun hg => ⟨hg.1, hg.2.1, hg.2.2.1,
          (psGet_psSet_ne (by decide) _ _).trans hg.2.2.2.1, hg.2.2.2.2⟩, fun _ => rfl, fun _ => rfl⟩
      | exact ⟨fun hg => ⟨hg.1, hg.2.1, hg.2.2.1, hg.2.2.2.1,
          (psGet_psSet_ne (by decide) _ _).trans hg.2.2.2.2⟩, fun _ => rfl, fun _ => rfl⟩
      | exact ⟨fun hg => ⟨hg.1, hg.2.1, hg.2.2.1,
          (psGet_psSet_ne (by decide) _ _).trans hg.2.2.2.1,
          (psGet_psSet_ne (by decide) _ _).trans hg.2.2.2.2⟩, fun _ => rfl, fun _ => rfl⟩)

theorem frame_applyTeff : Frame applyTeff := by
  intro s k v s' h
  unfold applyTeff at h
  split_ifs at h
  all_goals try (simp only [Option.map_eq_some'] at h; obtain ⟨q, hq, h⟩ := h)
  all_goals (first | subst h | (obtain rfl := Option.some.inj h))
  all_goals
    (first
      | exact ⟨fun hg => hg, fun _ => rfl, fun _ => rfl⟩
      | exact ⟨fun hg => ⟨hg.1, hg.2.1, hg.2.2.1,
          (psGet_psSet_ne (by decide) _ _).trans hg.2.2.2.1, hg.2.2.2.2⟩, fun _ => rfl, fun _ => rfl⟩
      | exact ⟨fun hg => ⟨hg.1, hg.2.1, hg.2.2.1, hg.2.2.2.1,
          (psGet_psSet_ne (by decide) _ _).trans hg.2.2.2.2⟩, fun _ => rfl, fun _ => rfl⟩
      | exact ⟨fun hg => ⟨hg.1, hg.2.1, hg.2.2.1,
          (psGet_psSet_ne (by decide) _ _).trans hg.2.2.2.1,
          (psGet_psSet_ne (by decide) _ _).trans hg.2.2.2.2⟩, fun _ => rfl, fun _ => rfl⟩)

theorem frame_applyReffect : Frame applyReffect := by
  intro s k v s' h
  unfold applyReffect at h
  split_ifs at h
  all_goals try (simp only [Option.map_eq_some'] at h; obtain ⟨q, hq, h⟩ := h)
  all_goals (first | subst h | (obtain rfl := Option.some.inj h))
  all_goals
    (first
      | exact ⟨fun hg => hg, fun _ => rfl, fun _ => rfl⟩
      | exact ⟨fun hg => ⟨hg.1, hg.2.1, hg.2.2.1,
          (psGet_psSet_ne (by decide) _ _).trans hg.2.2.2.1, hg.2.2.2.2⟩, fun _ => rfl, fun _ => rfl⟩
      | exact ⟨fun hg => ⟨hg.1, hg.2.1, hg.2.2.1, hg.2.2.2.1,
          (psGet_psSet_ne (by decide) _ _).trans hg.2.2.2.2⟩, fun _ => rfl, fun _ => rfl⟩
      | exact ⟨fun hg => ⟨hg.1, hg.2.1, hg.2.2.1,
          (psGet_psSet_ne (by decide) _ _).trans hg.2.2.2.1,
          (psGet_psSet_ne (by decide) _ _).trans hg.2.2.2.2⟩, fun _ => rfl, fun _ => rfl⟩)

theorem frame_applyMet : Frame applyMet := by
  intro s k v s' h
  unfold applyMet at h
  split_ifs at h
  all_goals try (simp only [Option.map_eq_some'] at h; obtain ⟨q, hq, h⟩ := h)
  all_goals (first | subst h | (obtain rfl := Option.some.inj h))
  all_goals
    (first
      | exact ⟨fun hg => hg, fun _ => rfl, fun _ => rfl⟩
      | exact ⟨fun hg => ⟨hg.1, hg.2.1, hg.2.2.1,
          (psGet_psSet_ne (by decide) _ _).trans hg.2.2.2.1, hg.2.2.2.2⟩, fun _ => rfl, fun _ => rfl⟩
      | exact ⟨fun hg => ⟨hg.1, hg.2.1, hg.2.2.1, hg.2.2.2.1,
          (psGet_psSet_ne (by decide) _ _).trans hg.2.2.2.2⟩, fun _ => rfl, fun _ => rfl⟩
      | exact ⟨fun hg => ⟨hg.1, hg.2.1, hg.2.2.1,
          (psGet_psSet_ne (by decide) _ _).trans hg.2.2.2.1,
          (psGet_psSet_ne (by decide) _ _).trans hg.2.2.2.2⟩, fun _ => rfl, fun _ => rfl⟩)

theorem frame_applyLdModel : Frame applyLdModel := by
  intro s k v s' h
  unfold applyLdModel at h
  dsimp only at h
  split_ifs at h
  all_goals (obtain rfl := Option.some.inj h)
  all_goals
    (first
      | exact ⟨fun hg => hg, fun _ => rfl, fun _ => rfl⟩
      | exact ⟨fun hg => ⟨hg.1, hg.2.1, hg.2.2.1,
          (psGet_psSet_ne (by decide) _ _).trans hg.2.2.2.1, hg.2.2.2.2⟩, fun _ => rfl, fun _ => rfl⟩
      | exact ⟨fun hg => ⟨hg.1, hg.2.1, hg.2.2.1, hg.2.2.2.1,
          (psGet_psSet_ne (by decide) _ _).trans hg.2.2.2.2⟩, fun _ => rfl, fun _ => rfl⟩
      | exact ⟨fun hg => ⟨hg.1, hg.2.1, hg.2.2.1,
          (psGet_psSet_ne (by decide) _ _).trans hg.2.2.2.1,
          (psGet_psSet_ne (by decide) _ _).trans hg.2.2.2.2⟩, fun _ => rfl, fun _ => rfl⟩)
theorem frame_applyLcFile : Frame applyLcFile := by
  intro s k v s' h
  unfold applyLcFile at h
  split_ifs at h
  all_goals simp only [Option.bind_eq_bind', Option.bind_eq_some', Option.some.injEq] at h
  all_goals try (subst h)
  all_goals try (obtain ⟨i1, hi1, h⟩ := h)
  all_goals try (obtain ⟨l1, hl1, h⟩ := h)
  all_goals try (obtain ⟨l2, hl2, h⟩ := h)
  all_goals try (subst h)
  · refine ⟨fun hg => ⟨?_, ?_, hg.2.2.1, hg.2.2.2.1, hg.2.2.2.2⟩, fun _ => rfl, fun _ => rfl⟩
    · rw [pyUpdI_length hl1, pyUpdI_length hl2]; exact hg.1
    · intro n hn; rw [pyUpdI_length hl1]; exact hg.2.1 n hn
  · exact ⟨fun hg => hg, fun _ => rfl, fun _ => rfl⟩
  · exact ⟨fun hg => hg, fun _ => rfl, fun _ => rfl⟩

theorem frame_applyLdLc : Frame applyLdLc := by
  intro s k v s' h
  unfold applyLdLc at h
  split_ifs at h
  all_goals simp only [Option.map_eq_some', Option.bind_eq_bind', Option.bind_eq_some',
    Option.some.injEq] at h
  all_goals try (subst h)
  all_goals try (obtain ⟨q1, hq1, h⟩ := h)
  all_goals try (obtain ⟨q2, hq2, h⟩ := h)
  all_goals try (obtain ⟨q3, hq3, h⟩ := h)
  all_goals try (obtain ⟨l1, hl1, h⟩ := h)
  all_goals try (subst h)
  · exact ⟨fun hg => hg, fun _ => rfl, fun _ => rfl⟩
  · exact ⟨fun hg => hg, fun _ => rfl, fun _ => rfl⟩
  · refine ⟨fun hg => ⟨?_, ?_, hg.2.2.1, hg.2.2.2.1, hg.2.2.2.2⟩, fun _ => rfl, fun _ => rfl⟩
    · rw [pyUpdI_length hl1]; exact hg.1
    · intro n hn; rw [pyUpdI_length hl1]; exact hg.2.1 n hn
  · refine ⟨fun hg => ⟨?_, hg.2.1, hg.2.2.1, hg.2.2.2.1, hg.2.2.2.2⟩, fun _ => rfl, fun _ => rfl⟩
    rw [pyUpdI_length hl1]; exact hg.1
  · exact ⟨fun hg => hg, fun _ => rfl, fun _ => rfl⟩

theorem frame_applyLcFilter : Frame applyLcFilter := by
  intro s k v s' h
  unfold applyLcFilter at h
  split_ifs at h
  all_goals simp only [Option.bind_eq_bind', Option.bind_eq_some', Option.some.injEq] at h
  all_goals try (subst h)
  all_goals try (obtain ⟨i1, hi1, h⟩ := h)
  all_goals try (obtain ⟨l1, hl1, h⟩ := h)
  all_goals try (obtain ⟨l2, hl2, h⟩ := h)
  all_goals try (subst h)
  · refine ⟨fun hg => ⟨?_, ?_, hg.2.2.1, hg.2.2.2.1, hg.2.2.2.2⟩, fun _ => rfl, fun _ => rfl⟩
    · rw [pyUpdI_length hl1, pyUpdI_length hl2]; exact hg.1
    · intro n hn; rw [pyUpdI_length hl1]; exact hg.2.1 n hn
  · exact ⟨fun hg => hg, fun _ => rfl, fun _ => rfl⟩

theorem frame_applyLum : Frame applyLum := by
  intro s k v s' h
  unfold applyLum at h
  split_ifs at h
  all_goals simp only [Option.bind_eq_bind', Option.bind_eq_some', Option.some.injEq] at h
  all_goals try (subst h)
  all_goals try (obtain ⟨q1, hq1, h⟩ := h)
  all_goals try (obtain ⟨i1, hi1, h⟩ := h)
  all_goals try (obtain ⟨l1, hl1, h⟩ := h)
  all_goals try (obtain ⟨l2, hl2, h⟩ := h)
  all_goals try (subst h)
  · refine ⟨fun hg => ⟨?_, ?_, hg.2.2.1, hg.2.2.2.1, hg.2.2.2.2⟩, fun _ => rfl, fun _ => rfl⟩
    · rw [pyUpdI_length hl1]; exact hg.1
    · intro n hn; rw [pyUpdI_length hl1]; exact hg.2.1 n hn
  · refine ⟨fun hg => ⟨?_, hg.2.1, hg.2.2.1, hg.2.2.2.1, hg.2.2.2.2⟩, fun _ => rfl, fun _ => rfl⟩
    rw [pyUpdI_length hl1]; exact hg.1
  · refine ⟨fun hg => ⟨?_, ?_, hg.2.2.1, hg.2.2.2.1, hg.2.2.2.2⟩, fun _ => rfl, fun _ => rfl⟩
    · rw [pyUpdI_length hl1, pyUpdI_length hl2]; exact hg.1
    · intro n hn; rw [pyUpdI_length hl1]; exact hg.2.1 n hn
  · exact ⟨fun hg => hg, fun _ => rfl, fun _ => rfl⟩

theorem frame_applyLdRv : Frame applyLdRv := by
  intro s k v s' h
  unfold applyLdRv at h
  split_ifs at h with h1 h2 h3 h4
  all_goals simp only [Option.map_eq_some', Option.bind_eq_bind', Option.bind_eq_some',
    Option.some.injEq] at h
  all_goals try (subst h)
  all_goals try (obtain ⟨q1, hq1, h⟩ := h)
  all_goals try (obtain ⟨q2, hq2, h⟩ := h)
  all_goals try (subst h)
  · exact ⟨fun hg => hg, fun _ => rfl, fun _ => rfl⟩
  · exact ⟨fun hg => hg, fun _ => rfl, fun _ => rfl⟩
  · exact ⟨fun hg => hg, fun hk => absurd h3 hk, fun _ => rfl⟩
  · exact ⟨fun hg => hg, fun _ => rfl, fun hk => absurd h4 hk⟩
  · exact ⟨fun hg => hg, fun _ => rfl, fun _ => rfl⟩

theorem frame_applyRvAccum : Frame applyRvAccum := by
  intro s k v s' h
  unfold applyRvAccum at h
  split_ifs at h
  all_goals simp only [Option.map_eq_some', Option.some.injEq] at h
  all_goals try (subst h)
  all_goals try (obtain ⟨q1, hq1, h⟩ := h)
  all_goals try (subst h)
  all_goals
    (first
      | exact ⟨fun hg => hg, fun _ => rfl, fun _ => rfl⟩
      | exact ⟨fun hg => ⟨hg.1, hg.2.1,
          by have := hg.2.2.1; simp only [List.length_append, List.length_cons,
            List.length_nil]; omega, hg.2.2.2.1, hg.2.2.2.2⟩, fun _ => rfl, fun _ => rfl⟩)

theorem frame_applyOrbit : Frame applyOrbit :=
  frame_pseq frame_applyCounts (frame_pseq frame_applyDpdt (frame_pseq frame_applyDperdt
    (frame_pseq frame_applyEcc (frame_pseq frame_applyHjd0 (frame_pseq frame_applyIncl
    (frame_pseq frame_applyPeriod (frame_pseq frame_applyPerr0 (frame_pseq frame_applyPshift
    (frame_pseq frame_applyRm (frame_pseq frame_applyVga
    (frame_pseq frame_applySma frame_applyMesh)))))))))))

theorem frame_applyComp : Frame applyComp :=
  frame_pseq frame_applyAtm (frame_pseq frame_applyAlb (frame_pseq frame_applySync
    (frame_pseq frame_applyGrb (frame_pseq frame_applyPot (frame_pseq frame_applyTeff
    (frame_pseq frame_applyReffect (frame_pseq frame_applyMet frame_applyLdModel)))))))

theorem frame_applyData : Frame applyData :=
  frame_pseq frame_applyBol (frame_pseq frame_applyLcFile (frame_pseq frame_applyLdLc
    (frame_pseq frame_applyLcFilter (frame_pseq frame_applyLum
    (frame_pseq frame_applyLdRv frame_applyRvAccum)))))

/-! ## Facts about a single line step and the line loop -/

theorem stepLine_facts {s s' : PState} {l : List Char} (h : stepLine s l = some s') :
    (Good s → Good s') ∧
    (keyOfLine l ≠ some "phoebe_ld_rvx1" → s'.ld_rvx1 = s.ld_rvx1) ∧
    (keyOfLine l ≠ some "phoebe_ld_rvx2" → s'.ld_rvx2 = s.ld_rvx2) := by
  cases l with
  | nil => cases h
  | cons c t =>
    simp only [stepLine] at h
    simp only [keyOfLine]
    by_cases hc : c = '#'
    · rw [if_pos hc] at h ⊢
      obtain rfl := Option.some.inj h
      exact ⟨fun hg => hg, fun _ => rfl, fun _ => rfl⟩
    · rw [if_neg hc] at h ⊢
      revert h
      cases htok : tokenize (c :: t) with
      | none =>
        intro h
        obtain rfl := Option.some.inj h
        exact ⟨fun hg => hg, fun _ => rfl, fun _ => rfl⟩
      | some kv =>
        obtain ⟨k0, v0⟩ := kv
        intro h
        dsimp only at h ⊢
        revert h
        cases hstrip : stripKey (remBr k0) with
        | none => intro h; exact Option.noConfusion h
        | some kf =>
          intro h
          dsimp only at h ⊢
          revert h
          cases happ1 : applyOrbit
              (match findBr k0 with
               | some d => { s with index := some ((d.toNat : Int) - 48 - 1) }
               | none => s) (String.mk kf) (normalizeVal v0) with
          | none => intro h; exact Option.noConfusion h
          | some s2 =>
            intro h
            dsimp only at h
            revert h
            cases happ2 : applyComp s2 (String.mk kf) (normalizeVal v0) with
            | none => intro h; exact Option.noConfusion h
            | some s3 =>
              intro h
              dsimp only at h
              have f1 := frame_applyOrbit _ _ _ _ happ1
              have f2 := frame_applyComp _ _ _ _ happ2
              have f3 := frame_applyData _ _ _ _ h
              have hs1 : (Good s →
                  Good (match findBr k0 with
                        | some d => { s with index := some ((d.toNat : Int) - 48 - 1) }
                        | none => s)) ∧
                  (match findBr k0 with
                   | some d => { s with index := some ((d.toNat : Int) - 48 - 1) }
                   | none => s).ld_rvx1 = s.ld_rvx1 ∧
                  (match findBr k0 with
                   | some d => { s with index := some ((d.toNat : Int) - 48 - 1) }
                   | none => s).ld_rvx2 = s.ld_rvx2 := by
                cases findBr k0 with
                | none => exact ⟨fun hg => hg, rfl, rfl⟩
                | some d => exact ⟨fun hg => hg, rfl, rfl⟩
              refine ⟨fun hg => (f3.1 (f2.1 (f1.1 (hs1.1 hg)))), fun hk => ?_, fun hk => ?_⟩
              · have hk' : String.mk kf ≠ "phoebe_ld_rvx1" := by
                  intro he
                  exact hk (by rw [Option.map_some', he])
                rw [f3.2.1 hk', f2.2.1 hk', f1.2.1 hk', hs1.2.1]
              · have hk' : String.mk kf ≠ "phoebe_ld_rvx2" := by
                  intro he
                  exact hk (by rw [Option.map_some', he])
                rw [f3.2.2 hk', f2.2.2 hk', f1.2.2 hk', hs1.2.2]

theorem runLines_append (s : PState) (xs ys : List (List Char)) :
    runLines s (xs ++ ys) =
      match runLines s xs with
      | none => none
      | some t => runLines t ys := by
  induction xs generalizing s with
  | nil => simp [runLines]
  | cons a as ih =>
    simp only [List.cons_append, runLines]
    cases hs : stepLine s a with
    | none => rfl
    | some t => exact ih t

theorem runLines_good {s t : PState} {xs : List (List Char)}
    (h : runLines s xs = some t) (hg : Good s) : Good t := by
  induction xs generalizing s with
  | nil =>
    obtain rfl := Option.some.inj h
    exact hg
  | cons a as ih =>
    simp only [runLines] at h
    revert h
    cases hs : stepLine s a with
    | none => intro h; exact Option.noConfusion h
    | some u =>
      intro h
      exact ih h ((stepLine_facts hs).1 hg)

theorem runLines_rvx1 {s t : PState} {xs : List (List Char)}
    (h : runLines s xs = some t)
    (hk : ∀ l ∈ xs, keyOfLine l ≠ some "phoebe_ld_rvx1") :
    t.ld_rvx1 = s.ld_rvx1 := by
  induction xs generalizing s with
  | nil =>
    obtain rfl := Option.some.inj h
    rfl
  | cons a as ih =>
    simp only [runLines] at h
    revert h
    cases hs : stepLine s a with
    | none => intro h; exact Option.noConfusion h
    | some u =>
      intro h
      have h1 := ih h (fun l hl => hk l (List.mem_cons_of_mem a hl))
      rw [h1, (stepLine_facts hs).2.1 (hk a (List.mem_cons_self a as))]

theorem runLines_rvx2 {s t : PState} {xs : List (List Char)}
    (h : runLines s xs = some t)
    (hk : ∀ l ∈ xs, keyOfLine l ≠ some "phoebe_ld_rvx2") :
    t.ld_rvx2 = s.ld_rvx2 := by
  induction xs generalizing s with
  | nil =>
    obtain rfl := Option.some.inj h
    rfl
  | cons a as ih =>
    simp only [runLines] at h
    revert h
    cases hs : stepLine s a with
    | none => intro h; exact Option.noConfusion h
    | some u =>
      intro h
      have h1 := ih h (fun l hl => hk l (List.mem_cons_of_mem a hl))
      rw [h1, (stepLine_facts hs).2.2 (hk a (List.mem_cons_self a as))]

theorem stepLine_skip {s : PState} {c : Char} {t : List Char}
    (hc : c ≠ '#') (htok : tokenize (c :: t) = none) :
    stepLine s (c :: t) = some s := by
  simp only [stepLine]
  rw [if_neg hc, htok]

theorem pseq_some {f g : PState → String → List Char → Option PState}
    {s s1 : PState} {k : String} {v : List Char} (hf : f s k v = some s1) :
    pseq f g s k v = g s1 k v := by
  unfold pseq
  rw [hf]

theorem pseq_none {f g : PState → String → List Char → Option PState}
    {s : PState} {k : String} {v : List Char} (hf : f s k v = none) :
    pseq f g s k v = none := by
  unfold pseq
  rw [hf]

theorem applyOrbit_rvy1 (s : PState) (v : List Char) :
    applyOrbit s "phoebe_ld_rvy1" v = some s := rfl

theorem applyComp_rvy1 (s : PState) (v : List Char) :
    applyComp s "phoebe_ld_rvy1" v = some s := rfl

/-- A `phoebe_ld_rvy1` line processed while the staged `ld_rvx1` slot is
still unset is a fatal `NameError`. -/
theorem applyData_rvy1_none {s : PState} (v : List Char) (hx : s.ld_rvx1 = none) :
    applyData s "phoebe_ld_rvy1" v = none := by
  have h1 : applyBol s "phoebe_ld_rvy1" v = some s := rfl
  have h2 : applyLcFile s "phoebe_ld_rvy1" v = some s := rfl
  have h3 : applyLdLc s "phoebe_ld_rvy1" v = some s := rfl
  have h4 : applyLcFilter s "phoebe_ld_rvy1" v = some s := rfl
  have h6 : applyLdRv s "phoebe_ld_rvy1" v = none := by
    unfold applyLdRv
    rw [if_pos rfl]
    cases hy : parseFloat (pySlice v 1 (-2)) with
    | none => simp [Option.bind_eq_bind', hy]
    | some y => simp [Option.bind_eq_bind', hy, hx]
  have h5 : applyLum s "phoebe_ld_rvy1" v = some s := rfl
  show pseq applyBol (pseq applyLcFile (pseq applyLdLc (pseq applyLcFilter
    (pseq applyLum (pseq applyLdRv applyRvAccum))))) s "phoebe_ld_rvy1" v = none
  rw [pseq_some h1, pseq_some h2, pseq_some h3, pseq_some h4, pseq_some h5, pseq_none h6]

theorem stepLine_rvy1 {s : PState} {l : List Char}
    (hkey : keyOfLine l = some "phoebe_ld_rvy1") (hx : s.ld_rvx1 = none) :
    stepLine s l = none := by
  cases l with
  | nil => exact Option.noConfusion hkey
  | cons c t =>
    simp only [keyOfLine] at hkey
    simp only [stepLine]
    by_cases hc : c = '#'
    · rw [if_pos hc] at hkey; exact Option.noConfusion hkey
    · rw [if_neg hc] at hkey ⊢
      revert hkey
      cases htok : tokenize (c :: t) with
      | none => intro hkey; exact Option.noConfusion hkey
      | some kv =>
        obtain ⟨k0, v0⟩ := kv
        intro hkey
        dsimp only at hkey ⊢
        revert hkey
        cases hstrip : stripKey (remBr k0) with
        | none => intro hkey; exact Option.noConfusion hkey
        | some kf =>
          intro hkey
          rw [Option.map_some'] at hkey
          obtain heq := Option.some.inj hkey
          dsimp only
          rw [heq, applyOrbit_rvy1]
          dsimp only
          rw [applyComp_rvy1]
          dsimp only
          rw [applyData_rvy1_none _ ?_]
          cases hbr : findBr k0 with
          | none => exact hx
          | some d => exact hx

theorem applyOrbit_rvy2 (s : PState) (v : List Char) :
    applyOrbit s "phoebe_ld_rvy2" v = some s := rfl

theorem applyComp_rvy2 (s : PState) (v : List Char) :
    applyComp s "phoebe_ld_rvy2" v = some s := rfl

/-- A `phoebe_ld_rvy2` line processed while the staged `ld_rvx2` slot is
still unset is a fatal `NameError`. -/
theorem applyData_rvy2_none {s : PState} (v : List Char) (hx : s.ld_rvx2 = none) :
    applyData s "phoebe_ld_rvy2" v = none := by
  have h1 : applyBol s "phoebe_ld_rvy2" v = some s := rfl
  have h2 : applyLcFile s "phoebe_ld_rvy2" v = some s := rfl
  have h3 : applyLdLc s "phoebe_ld_rvy2" v = some s := rfl
  have h4 : applyLcFilter s "phoebe_ld_rvy2" v = some s := rfl
  have h6 : applyLdRv s "phoebe_ld_rvy2" v = none := by
    unfold applyLdRv
    rw [if_neg (by decide), if_pos rfl]
    cases hy : parseFloat (pySlice v 1 (-2)) with
    | none => simp [Option.bind_eq_bind', hy]
    | some y => simp [Option.bind_eq_bind', hy, hx]
  have h5 : applyLum s "phoebe_ld_rvy2" v = some s := rfl
  show pseq applyBol (pseq applyLcFile (pseq applyLdLc (pseq applyLcFilter
    (pseq applyLum (pseq applyLdRv applyRvAccum))))) s "phoebe_ld_rvy2" v = none
  rw [pseq_some h1, pseq_some h2, pseq_some h3, pseq_some h4, pseq_some h5, pseq_none h6]

theorem stepLine_rvy2 {s : PState} {l : List Char}
    (hkey : keyOfLine l = some "phoebe_ld_rvy2") (hx : s.ld_rvx2 = none) :
    stepLine s l = none := by
  cases l with
  | nil => exact Option.noConfusion hkey
  | cons c t =>
    simp only [keyOfLine] at hkey
    simp only [stepLine]
    by_cases hc : c = '#'
    · rw [if_pos hc] at hkey; exact Option.noConfusion hkey
    · rw [if_neg hc] at hkey ⊢
      revert hkey
      cases htok : tokenize (c :: t) with
      | none => intro hkey; exact Option.noConfusion hkey
      | some kv =>
        obtain ⟨k0, v0⟩ := kv
        intro hkey
        dsimp only at hkey ⊢
        revert hkey
        cases hstrip : stripKey (remBr k0) with
        | none => intro hkey; exact Option.noConfusion hkey
        | some kf =>
          intro hkey
          rw [Option.map_some'] at hkey
          obtain heq := Option.some.inj hkey
          dsimp only
          rw [heq, applyOrbit_rvy2]
          dsimp only
          rw [applyComp_rvy2]
          dsimp only
          rw [applyData_rvy2_none _ ?_]
          cases hbr : findBr k0 with
          | none => exact hx
          | some d => exact hx

/-- C9: a `phoebe_ld_rvy1` line processed before any `phoebe_ld_rvx1` line
— and likewise a `phoebe_ld_rvy2` line processed before any
`phoebe_ld_rvx2` line — makes the whole parse fail: the staged `x` slot of
that star is read before it was ever populated. -/
theorem rvy_before_rvx_fatal :
    (∀ (pre rest : List (List Char)) (bad : List Char) (fs : FS),
       keyOfLine bad = some "phoebe_ld_rvy1" →
       (∀ l ∈ pre, keyOfLine l ≠ some "phoebe_ld_rvx1") →
       legacy_to_phoebe (pre ++ bad :: rest) fs = none) ∧
    (∀ (pre rest : List (List Char)) (bad : List Char) (fs : FS),
       keyOfLine bad = some "phoebe_ld_rvy2" →
       (∀ l ∈ pre, keyOfLine l ≠ some "phoebe_ld_rvx2") →
       legacy_to_phoebe (pre ++ bad :: rest) fs = none) := by
  constructor
  · intro pre rest bad fs hbad hpre
    unfold legacy_to_phoebe
    rw [runLines_append]
    cases hr : runLines initState pre with
    | none => rfl
    | some t =>
      have hx : t.ld_rvx1 = none := by rw [runLines_rvx1 hr hpre]; rfl
      have hrun : runLines t (bad :: rest) = none := by
        simp only [runLines]
        rw [stepLine_rvy1 hbad hx]
      dsimp only
      rw [hrun]
  · intro pre rest bad fs hbad hpre
    unfold legacy_to_phoebe
    rw [runLines_append]
    cases hr : runLines initState pre with
    | none => rfl
    | some t =>
      have hx : t.ld_rvx2 = none := by rw [runLines_rvx2 hr hpre]; rfl
      have hrun : runLines t (bad :: rest) = none := by
        simp only [runLines]
        rw [stepLine_rvy2 hbad hx]
      dsimp only
      rw [hrun]

/-- C8: a line on which the key/value split fails (it does not split into
exactly two parts) is logged and skipped: the parse of the file with the
malformed line interleaved is identical, record for record, to the parse of
the file without it. -/
theorem malformed_line_skipped (pre post : List (List Char)) (c : Char) (t : List Char)
    (fs : FS) (hc : c ≠ '#') (htok : tokenize (c :: t) = none) :
    legacy_to_phoebe (pre ++ (c :: t) :: post) fs = legacy_to_phoebe (pre ++ post) fs := by
  unfold legacy_to_phoebe
  rw [runLines_append, runLines_append]
  cases hr : runLines initState pre with
  | none => rfl
  | some s =>
    have hrun : runLines s ((c :: t) :: post) = runLines s post := by
      simp only [runLines]
      rw [stepLine_skip hc htok]
    dsimp only
    rw [hrun]

/-! ## The post-scan reduction loops -/

theorem lcCopy_spec {c1 c2 : ParamSet} :
    ∀ (rem i : Nat) (l1 l2 m1 m2 : List LCDep),
      lcCopy c1 c2 rem i l1 l2 = some (m1, m2) →
      m1.length = l1.length ∧ m2.length = l2.length ∧
      (∀ j, j < i → m1.get? j = l1.get? j ∧ m2.get? j = l2.get? j) ∧
      (∀ j, i ≤ j → j < i + rem →
        (m2.get? j).map LCDep.ref = (m1.get? j).map LCDep.ref) := by
  intro rem
  induction rem with
  | zero =>
    intro i l1 l2 m1 m2 h
    simp only [lcCopy, Option.some.injEq, Prod.mk.injEq] at h
    obtain ⟨rfl, rfl⟩ := h
    refine ⟨rfl, rfl, fun j _ => ⟨rfl, rfl⟩, ?_⟩
    intro j h1 h2
    exact absurd (lt_of_le_of_lt h1 h2) (lt_irrefl i)
  | succ rem ih =>
    intro i l1 l2 m1 m2 h
    simp only [lcCopy, Option.bind_eq_bind', Option.bind_eq_some'] at h
    obtain ⟨d1, hd1, l1n, hl1n, d2, hd2, l2n, hl2n, h⟩ := h
    obtain ⟨ih1, ih2, ihpre, ihref⟩ := ih (i + 1) l1n l2n m1 m2 h
    refine ⟨ih1.trans (pySetN_length hl1n), ih2.trans (pySetN_length hl2n), ?_, ?_⟩
    · intro j hj
      obtain ⟨p1, p2⟩ := ihpre j (by omega)
      exact ⟨p1.trans (pySetN_get?_ne hl1n (by omega)),
             p2.trans (pySetN_get?_ne hl2n (by omega))⟩
    · intro j hij hjr
      rcases Nat.eq_or_lt_of_le hij with heq | hlt
      · obtain ⟨p1, p2⟩ := ihpre j (by omega)
        rw [p1, p2, ← heq, pySetN_get?_same hl1n, pySetN_get?_same hl2n]
        rfl
      · exact ihref j hlt (by omega)

theorem rvLoop_lengths {c1 c2 : ParamSet} {st : PState} {fs : FS} :
    ∀ (rem i j k : Nat) (r1 r2 : List RVDep) (o1 o2 : List RVObs)
      (q1 q2 : List RVDep) (p1 p2 : List RVObs),
      rvLoop c1 c2 st fs rem i j k r1 r2 o1 o2 = some (q1, q2, p1, p2) →
      q1.length = r1.length ∧ q2.length = r2.length := by
  intro rem
  induction rem with
  | zero =>
    intro i j k r1 r2 o1 o2 q1 q2 p1 p2 h
    simp only [rvLoop, Option.some.injEq, Prod.mk.injEq] at h
    obtain ⟨rfl, rfl, rfl, rfl⟩ := h
    exact ⟨rfl, rfl⟩
  | succ rem ih =>
    intro i j k r1 r2 o1 o2 q1 q2 p1 p2 h
    simp only [rvLoop, Option.bind_eq_bind', Option.bind_eq_some'] at h
    obtain ⟨dep, hdep, h⟩ := h
    split_ifs at h with hdep1
    · simp only [Option.bind_eq_bind', Option.bind_eq_some'] at h
      obtain ⟨lc, hlc, pb, hpb, d, hd, r1n, hr1n, file, hfile, h⟩ := h
      split_ifs at h with hfdef
      · revert h
        cases ho : mkObs1 st fs i j file with
        | none => intro h; exact Option.noConfusion h
        | some o =>
          intro h
          obtain ⟨ihl1, ihl2⟩ := ih _ _ _ _ _ _ _ _ _ _ _ h
          exact ⟨ihl1.trans (pySetN_length hr1n), ihl2⟩
      · obtain ⟨ihl1, ihl2⟩ := ih _ _ _ _ _ _ _ _ _ _ _ h
        exact ⟨ihl1.trans (pySetN_length hr1n), ihl2⟩
    · simp only [Option.bind_eq_bind', Option.bind_eq_some'] at h
      obtain ⟨lc, hlc, pb, hpb, d, hd, r2n, hr2n, file, hfile, h⟩ := h
      split_ifs at h with hfdef
      · revert h
        cases ho : mkObs2 st fs i k file with
        | none => intro h; exact Option.noConfusion h
        | some o =>
          intro h
          obtain ⟨ihl1, ihl2⟩ := ih _ _ _ _ _ _ _ _ _ _ _ h
          exact ⟨ihl1, ihl2.trans (pySetN_length hr2n)⟩
      · obtain ⟨ihl1, ihl2⟩ := ih _ _ _ _ _ _ _ _ _ _ _ h
        exact ⟨ihl1, ihl2.trans (pySetN_length hr2n)⟩

/-- Anatomy of a successful post-scan reduction: the bolometric
coefficients, counts, copy-loop and assembler outputs, and the final orbit
labels, read back from the result record. -/
theorem postProcess_parts {fs : FS} {s : PState} {res : PResult}
    (h : postProcess fs s = some res) :
    ∃ (x1 y1 x2 y2 : ℝ) (n r : Int) (lbl1 lbl2 : PVal),
      s.ld_xbol1 = some x1 ∧ s.ld_ybol1 = some y1 ∧
      s.ld_xbol2 = some x2 ∧ s.ld_ybol2 = some y2 ∧
      s.lcno = some n ∧ s.rvno = some r ∧
      lcCopy (psSet s.comp1 "ld_coeffs" (.pr x1 y1)) (psSet s.comp2 "ld_coeffs" (.pr x2 y2))
          n.toNat 0 s.lcdep1 s.lcdep2 = some (res.lcdep1, res.lcdep2) ∧
      (∃ o1 o2, rvLoop (psSet s.comp1 "ld_coeffs" (.pr x1 y1))
          (psSet s.comp2 "ld_coeffs" (.pr x2 y2)) s fs r.toNat 0 0 0
          (List.replicate s.prim_rv {}) (List.replicate s.sec_rv {}) [] [] =
          some (res.rvdep1, res.rvdep2, o1, o2)) ∧
      psGet (psSet s.comp1 "ld_coeffs" (.pr x1 y1)) "label" = some lbl1 ∧
      psGet (psSet s.comp2 "ld_coeffs" (.pr x2 y2)) "label" = some lbl2 ∧
      res.orbit = psSet (psSet (psSet (psSet (psSet s.orbit "long_an" (.r 0))
          "c1label" lbl1) "c2label" lbl2) "label" (.s (str "myorbit")))
          "t0type" (.s (str "superior conjunction")) ∧
      res.final = s := by
  simp only [postProcess, Option.bind_eq_bind', Option.bind_eq_some'] at h
  obtain ⟨x1, hx1, y1, hy1, x2, hx2, y2, hy2, n, hn, pr, hpr, h⟩ := h
  obtain ⟨lcd1, lcd2⟩ := pr
  dsimp only at h
  try simp only [Option.bind_eq_bind', Option.bind_eq_some'] at h
  obtain ⟨r, hr, qu, hqu, h⟩ := h
  obtain ⟨rvd1, rvd2, po1, po2⟩ := qu
  dsimp only at h
  try simp only [Option.bind_eq_bind', Option.bind_eq_some', Option.some.injEq] at h
  try simp only [Option.some.injEq] at h
  obtain ⟨lbl1, hlbl1, lbl2, hlbl2, h⟩ := h
  subst h
  exact ⟨x1, y1, x2, y2, n, r, lbl1, lbl2, hx1, hy1, hx2, hy2, hn, hr, hpr,
    ⟨po1, po2, hqu⟩, hlbl1, hlbl2, rfl, rfl⟩

/-- C1: after a completed parse, the two light-curve dependency arrays both
have length `lcno` (the value (`n`) of the last `phoebe_lcno` key, which a
valid legacy file declares nonnegative) and carry the same dataset
reference name at every index. -/
theorem lcdep_arrays_parallel {lines : List (List Char)} {fs : FS} {res : PResult} {n : Int}
    (h : legacy_to_phoebe lines fs = some res)
    (hn : res.final.lcno = some n) (hpos : 0 ≤ n) :
    (res.lcdep1.length : Int) = n ∧ (res.lcdep2.length : Int) = n ∧
    res.lcdep2.map LCDep.ref = res.lcdep1.map LCDep.ref := by
  unfold legacy_to_phoebe at h
  revert h
  cases hrun : runLines initState lines with
  | none => intro h; exact Option.noConfusion h
  | some t =>
    intro h
    have hg : Good t := runLines_good hrun initState_good
    obtain ⟨x1, y1, x2, y2, n', r, lbl1, lbl2, hx1, hy1, hx2, hy2, hn', hr, hcopy,
      hrv, hlbl1, hlbl2, horb, hfin⟩ := postProcess_parts h
    rw [hfin] at hn
    rw [hn] at hn'
    obtain rfl := Option.some.inj hn'
    have hlen1 : t.lcdep1.length = n.toNat := hg.2.1 n hn
    have hlen2 : t.lcdep2.length = n.toNat := hg.1 ▸ hlen1
    obtain ⟨c1, c2, cpre, cref⟩ := lcCopy_spec n.toNat 0 t.lcdep1 t.lcdep2 _ _ hcopy
    have l1 : res.lcdep1.length = n.toNat := c1.trans hlen1
    have l2 : res.lcdep2.length = n.toNat := c2.trans hlen2
    refine ⟨by rw [l1, Int.toNat_of_nonneg hpos], by rw [l2, Int.toNat_of_nonneg hpos], ?_⟩
    apply List.ext
    intro jj
    rw [List.get?_map, List.get?_map]
    by_cases hj : jj < n.toNat
    · exact cref jj (Nat.zero_le _) (by omega)
    · rw [List.get?_eq_none.2 (by omega), List.get?_eq_none.2 (by omega)]

/-- C2: after a completed parse of a valid file — one whose number of
`phoebe_rv_dep` lines equals the declared `phoebe_rvno` count — the per-star
RV dependency arrays partition the total: their lengths sum to `rvno`. -/
theorem rv_counts_partition {lines : List (List Char)} {fs : FS} {res : PResult} {r : Int}
    (h : legacy_to_phoebe lines fs = some res)
    (hr : res.final.rvno = some r)
    (hvalid : (res.final.rv_dep.length : Int) = r) :
    (res.rvdep1.length : Int) + (res.rvdep2.length : Int) = r := by
  unfold legacy_to_phoebe at h
  revert h
  cases hrun : runLines initState lines with
  | none => intro h; exact Option.noConfusion h
  | some t =>
    intro h
    have hg : Good t := runLines_good hrun initState_good
    obtain ⟨x1, y1, x2, y2, n, r', lbl1, lbl2, hx1, hy1, hx2, hy2, hn, hr', hcopy,
      ⟨o1, o2, hrv⟩, hlbl1, hlbl2, horb, hfin⟩ := postProcess_parts h
    rw [hfin] at hr hvalid
    obtain ⟨q1, q2⟩ := rvLoop_lengths _ _ _ _ _ _ _ _ _ _ _ _ hrv
    rw [List.length_replicate] at q1 q2
    have hcount : t.prim_rv + t.sec_rv = t.rv_dep.length := hg.2.2.1
    rw [q1, q2]
    omega

/-- C10: whatever the file contents, a completed parse always returns an
orbit whose epoch-convention tag is `superior conjunction`, whose longitude
of the ascending node is 0, whose label is `myorbit`, and whose component
labels are the fixed construction-time labels `myprimary` and
`mysecondary`. -/
theorem orbit_fixed_fields {lines : List (List Char)} {fs : FS} {res : PResult}
    (h : legacy_to_phoebe lines fs = some res) :
    psGet res.orbit "t0type" = some (.s (str "superior conjunction")) ∧
    psGet res.orbit "label" = some (.s (str "myorbit")) ∧
    psGet res.orbit "c1label" = some (.s (str "myprimary")) ∧
    psGet res.orbit "c2label" = some (.s (str "mysecondary")) ∧
    psGet res.orbit "long_an" = some (.r 0) := by
  unfold legacy_to_phoebe at h
  revert h
  cases hrun : runLines initState lines with
  | none => intro h; exact Option.noConfusion h
  | some t =>
    intro h
    have hg : Good t := runLines_good hrun initState_good
    obtain ⟨x1, y1, x2, y2, n, r, lbl1, lbl2, hx1, hy1, hx2, hy2, hn, hr, hcopy,
      hrv, hlbl1, hlbl2, horb, hfin⟩ := postProcess_parts h
    have hl1 : lbl1 = .s (str "myprimary") := by
      rw [psGet_psSet_ne (by decide) _ _] at hlbl1
      exact (Option.some.inj (hg.2.2.2.1 ▸ hlbl1)).symm
    have hl2 : lbl2 = .s (str "mysecondary") := by
      rw [psGet_psSet_ne (by decide) _ _] at hlbl2
      exact (Option.some.inj (hg.2.2.2.2 ▸ hlbl2)).symm
    subst hl1 hl2
    rw [horb]
    refine ⟨psGet_psSet_same _ _ _, ?_, ?_, ?_, ?_⟩
    · rw [psGet_psSet_ne (by decide) _ _]
      exact psGet_psSet_same _ _ _
    · rw [psGet_psSet_ne (by decide) _ _, psGet_psSet_ne (by decide) _ _,
          psGet_psSet_ne (by decide) _ _]
      exact psGet_psSet_same _ _ _
    · rw [psGet_psSet_ne (by decide) _ _, psGet_psSet_ne (by decide) _ _]
      exact psGet_psSet_same _ _ _
    · rw [psGet_psSet_ne (by decide) _ _, psGet_psSet_ne (by decide) _ _,
          psGet_psSet_ne (by decide) _ _, psGet_psSet_ne (by decide) _ _]
      exact psGet_psSet_same _ _ _

/-- C3: the time-convention transform computes
`t0 + (phshift - 0.25 + per0/(2π))·P`; at superior-conjunction epoch
2450000.0, phase shift 0, period 10 and periastron argument 0 it returns
2449997.5. -/
theorem from_supconj_to_perpass_spec :
    (∀ t ph P w : ℝ,
      from_supconj_to_perpass t ph P w = t + (ph - 0.25 + w / (2 * Real.pi)) * P) ∧
    from_supconj_to_perpass 2450000 0 10 0 = 2449997.5 := by
  refine ⟨fun t ph P w => rfl, ?_⟩
  unfold from_supconj_to_perpass
  rw [zero_div]
  norm_num

/-- C4 counterexample: the stored `per0` limit is `v/π·180`, not `v·π/180`;
at `v = π` the code stores 180 while the claim predicts `π²/180`. -/
theorem perr0_limit_conv_counterexample :
    perr0LimitConv Real.pi ≠ perr0LimitConvSpec Real.pi := by
  unfold perr0LimitConv perr0LimitConvSpec
  rw [div_self Real.pi_ne_zero, one_mul]
  intro hcon
  have hpi : Real.pi < 3.15 := Real.pi_lt_315
  have hpi2 : 3 < Real.pi := Real.pi_gt_three
  nlinarith [hcon, hpi, hpi2]

theorem perr0LimitConv_eq (v : ℝ) : perr0LimitConv v = v * 180 / Real.pi := by
  unfold perr0LimitConv
  ring

/-- C4 amended: a `phoebe_perr0.MAX`/`MIN`/`STEP` line with numeric value
`v` stores `v·180/π` — the radians-to-degrees conversion — as the limit or
step of the `per0` parameter. -/
theorem perr0_limits_stored {s s' : PState} {v : List Char} {q : ℚ}
    (hq : parseFloat v = some q) :
    (applyPerr0 s "phoebe_perr0.MAX" v = some s' →
       psGet s'.orbit "per0.ulim" = some (.r ((q : ℝ) * 180 / Real.pi))) ∧
    (applyPerr0 s "phoebe_perr0.MIN" v = some s' →
       psGet s'.orbit "per0.llim" = some (.r ((q : ℝ) * 180 / Real.pi))) ∧
    (applyPerr0 s "phoebe_perr0.STEP" v = some s' →
       psGet s'.orbit "per0.step" = some (.r ((q : ℝ) * 180 / Real.pi))) := by
  refine ⟨fun h => ?_, fun h => ?_, fun h => ?_⟩
  · rw [show applyPerr0 s "phoebe_perr0.MAX" v =
          (parseFloat v).map (fun (q : ℚ) =>
            { s with orbit := psSet s.orbit "per0.ulim" (.r (perr0LimitConv (q : ℝ))) })
          from rfl, hq, Option.map_some'] at h
    obtain rfl := (Option.some.inj h).symm
    rw [← perr0LimitConv_eq]
    exact psGet_psSet_same _ _ _
  · rw [show applyPerr0 s "phoebe_perr0.MIN" v =
          (parseFloat v).map (fun (q : ℚ) =>
            { s with orbit := psSet s.orbit "per0.llim" (.r (perr0LimitConv (q : ℝ))) })
          from rfl, hq, Option.map_some'] at h
    obtain rfl := (Option.some.inj h).symm
    rw [← perr0LimitConv_eq]
    exact psGet_psSet_same _ _ _
  · rw [show applyPerr0 s "phoebe_perr0.STEP" v =
          (parseFloat v).map (fun (q : ℚ) =>
            { s with orbit := psSet s.orbit "per0.step" (.r (perr0LimitConv (q : ℝ))) })
          from rfl, hq, Option.map_some'] at h
    obtain rfl := (Option.some.inj h).symm
    rw [← perr0LimitConv_eq]
    exact psGet_psSet_same _ _ _

/-! ## Tokenizer analysis for single-character separators -/

theorem splitGo_single_no (c : Char) :
    ∀ (l : List Char) (fuel : Nat), l.length ≤ fuel → c ∉ l →
      splitGo c [] fuel l = [l] := by
  intro l
  induction l with
  | nil => intro fuel _ _; cases fuel <;> rfl
  | cons a rest ih =>
    intro fuel hfuel hmem
    simp only [List.mem_cons, not_or] at hmem
    cases fuel with
    | zero => simp at hfuel
    | succ f =>
      have hca : ¬(c :: ([] : List Char)).isPrefixOf (a :: rest) := by
        simp only [List.isPrefixOf, List.isPrefixOf_nil_left, Bool.and_true, beq_iff_eq]
        exact hmem.1
      have hlen : rest.length ≤ f := by simp at hfuel; omega
      simp only [splitGo, if_neg hca]
      rw [ih f hlen hmem.2]

theorem splitGo_single_app (c : Char) :
    ∀ (a b : List Char) (fuel : Nat), (a ++ c :: b).length ≤ fuel → c ∉ a →
      splitGo c [] fuel (a ++ c :: b) = a :: splitGo c [] (fuel - a.length - 1) b := by
  intro a
  induction a with
  | nil =>
    intro b fuel hfuel _
    cases fuel with
    | zero => simp at hfuel
    | succ f =>
      have hpre : (c :: ([] : List Char)).isPrefixOf (c :: b) := by
        simp [List.isPrefixOf]
      simp only [List.nil_append, splitGo, if_pos hpre, List.length_nil, List.drop_zero]
      have hf : f + 1 - 0 - 1 = f := by omega
      rw [hf]
  | cons x a' ih =>
    intro b fuel hfuel hmem
    simp only [List.mem_cons, not_or] at hmem
    cases fuel with
    | zero => simp at hfuel
    | succ f =>
      have hcx : ¬(c :: ([] : List Char)).isPrefixOf (x :: (a' ++ c :: b)) := by
        simp only [List.isPrefixOf, List.isPrefixOf_nil_left, Bool.and_true, beq_iff_eq]
        exact hmem.1
      have hlen : (a' ++ c :: b).length ≤ f := by
        simp only [List.length_append, List.length_cons] at hfuel ⊢
        omega
      simp only [List.cons_append, splitGo, List.append_eq, List.length_nil, List.drop_zero]
      rw [if_neg hcx, ih b f hlen hmem.2]
      have hf : f + 1 - (x :: a').length - 1 = f - a'.length - 1 := by
        simp only [List.length_cons]
        omega
      rw [hf]

theorem splitGo_single_length (c : Char) :
    ∀ (l : List Char) (fuel : Nat), l.length ≤ fuel →
      (splitGo c [] fuel l).length = l.count c + 1 := by
  intro l
  induction l with
  | nil => intro fuel _; cases fuel <;> simp [splitGo]
  | cons a rest ih =>
    intro fuel hfuel
    cases fuel with
    | zero => simp at hfuel
    | succ f =>
      have hlen : rest.length ≤ f := by simp at hfuel; omega
      by_cases hca : c = a
      · have hpre : (c :: ([] : List Char)).isPrefixOf (a :: rest) := by
          simp [List.isPrefixOf, hca]
        simp only [splitGo, if_pos hpre, List.length_nil, List.drop_zero, List.length_cons]
        rw [ih f hlen]
        simp [List.count_cons, hca]
      · have hpre : ¬(c :: ([] : List Char)).isPrefixOf (a :: rest) := by
          simp [List.isPrefixOf, hca]
        simp only [splitGo, if_neg hpre]
        have hne := ih f hlen
        revert hne
        cases hres : splitGo c [] f rest with
        | nil => intro hne; simp at hne
        | cons hh tt =>
          intro hne
          simp only [List.length_cons] at hne ⊢
          have hcnt : (a :: rest).count c = rest.count c := by
            simp [List.count_cons, hca]
          omega

theorem tokenize_split (a b : List Char) (ha : '=' ∉ a) (hb : '=' ∉ b) :
    tokenize (a ++ '=' :: b) = some (a, b) := by
  unfold tokenize splitSub
  dsimp only
  rw [splitGo_single_app '=' a b _ (le_refl _) ha]
  have hfb : (a ++ '=' :: b).length - a.length - 1 = b.length := by
    simp [List.length_append]
  rw [hfb, splitGo_single_no '=' b _ (le_refl _) hb]

theorem tokenize_none_of_count {l : List Char} (h : l.count '=' ≠ 1) :
    tokenize l = none := by
  unfold tokenize splitSub
  dsimp only
  have hlen := splitGo_single_length '=' l l.length (le_refl _)
  revert hlen
  cases hres : splitGo '=' [] l.length l with
  | nil => intro _; rfl
  | cons k tl =>
    cases tl with
    | nil => intro _; rfl
    | cons v tl2 =>
      cases tl2 with
      | nil =>
        intro hlen
        simp only [List.length_cons, List.length_nil] at hlen
        omega
      | cons w tl3 => intro _; rfl

/-- C5 counterexample: a non-comment line with two `=` characters is not
split at the first `=` with the remainder as value; the tuple unpacking of
the full split raises and the line is skipped (`tokenize` returns `none`
instead of the predicted key/value pair). -/
theorem tokenizer_counterexample :
    tokenize (str "a=b=c") = none ∧
    (str "a=b=c").head? ≠ some '#' ∧ '=' ∈ str "a=b=c" := by decide

/-- C5 amended: the tokenizer accepts exactly the lines containing exactly
one `=`: such a line is split into the text before and the text after that
`=`; a line with zero or with two or more `=` characters is logged and
skipped. -/
theorem tokenizer_spec :
    (∀ a b : List Char, '=' ∉ a → '=' ∉ b → tokenize (a ++ '=' :: b) = some (a, b)) ∧
    (∀ l : List Char, l.count '=' ≠ 1 → tokenize l = none) :=
  ⟨tokenize_split, fun _ h => tokenize_none_of_count h⟩

/-! ## RV observation column layouts (source lines 512-588) -/

theorem loadtxt2_spec {fs : FS} {file : List Char} {cols : List (List ℝ)}
    {a b : List ℝ} (hcols : fs file = some cols)
    (h : loadtxt2 fs file = some (a, b)) : cols = [a, b] := by
  unfold loadtxt2 at h
  rw [hcols] at h
  rcases cols with _ | ⟨c1, _ | ⟨c2, _ | ⟨c3, r⟩⟩⟩ <;> simp_all

theorem loadtxt3_spec {fs : FS} {file : List Char} {cols : List (List ℝ)}
    {a b c : List ℝ} (hcols : fs file = some cols)
    (h : loadtxt3 fs file = some (a, b, c)) : cols = [a, b, c] := by
  unfold loadtxt3 at h
  rw [hcols] at h
  rcases cols with _ | ⟨c1, _ | ⟨c2, _ | ⟨c3, _ | ⟨c4, r⟩⟩⟩⟩ <;> simp_all

theorem mkObs1_columns {st : PState} {fs : FS} {i j : Nat} {file : List Char}
    {obs : RVObs} {sk tk : List Char} {cols : List (List ℝ)}
    (h : mkObs1 st fs i j file = some obs)
    (hsk : pyGetN st.rvsigma i = some sk) (htk : pyGetN st.rvtime i = some tk)
    (hcols : fs file = some cols) :
    ObsColumnSpec sk tk cols obs := by
  simp only [mkObs1, Option.bind_eq_bind', Option.bind_eq_some'] at h
  obtain ⟨sk', hsk', tk', htk', w, hw, nm, hnm, h⟩ := h
  obtain rfl : sk = sk' := Option.some.inj (hsk.symm.trans hsk')
  obtain rfl : tk = tk' := Option.some.inj (htk.symm.trans htk')
  unfold ObsColumnSpec
  by_cases hu : sk = str "undefined"
  · subst hu
    rw [if_pos rfl] at h
    by_cases htkv : tk = str "time"
    · rw [if_pos htkv] at h
      simp only [Option.bind_eq_bind', Option.bind_eq_some'] at h
      obtain ⟨p, hp, h⟩ := h
      obtain ⟨a, b⟩ := p
      dsimp only at h
      obtain rfl := (Option.some.inj h).symm
      obtain rfl := loadtxt2_spec hcols hp
      exact ⟨fun _ => ⟨rfl, rfl, rfl, rfl, fun _ => ⟨rfl, rfl⟩, fun hc => absurd htkv hc⟩,
             fun hc => absurd rfl hc,
             fun hc => absurd hc (by decide), fun hc => absurd hc (by decide)⟩
    · rw [if_neg htkv] at h
      simp only [Option.bind_eq_bind', Option.bind_eq_some'] at h
      obtain ⟨p, hp, h⟩ := h
      obtain ⟨a, b⟩ := p
      dsimp only at h
      obtain rfl := (Option.some.inj h).symm
      obtain rfl := loadtxt2_spec hcols hp
      exact ⟨fun _ => ⟨rfl, rfl, rfl, rfl, fun hc => absurd hc htkv, fun _ => ⟨rfl, rfl⟩⟩,
             fun hc => absurd rfl hc,
             fun hc => absurd hc (by decide), fun hc => absurd hc (by decide)⟩
  · rw [if_neg hu] at h
    by_cases htkv : tk = str "time"
    · rw [if_pos htkv] at h
      by_cases hs : sk = str "sigma"
      · rw [if_pos hs] at h
        simp only [Option.bind_eq_bind', Option.bind_eq_some'] at h
        obtain ⟨p, hp, h⟩ := h
        obtain ⟨a, b, c⟩ := p
        dsimp only at h
        obtain rfl := (Option.some.inj h).symm
        obtain rfl := loadtxt3_spec hcols hp
        refine ⟨fun hc => absurd hc hu,
                fun _ => ⟨rfl, rfl, fun _ => ⟨rfl, rfl⟩, fun hc => absurd htkv hc⟩,
                fun _ => ⟨rfl, rfl⟩, fun hwk => ?_⟩
        rw [hs] at hwk
        exact absurd hwk (by decide)
      · rw [if_neg hs] at h
        simp only [Option.bind_eq_bind', Option.bind_eq_some'] at h
        obtain ⟨p, hp, h⟩ := h
        obtain ⟨a, b, c⟩ := p
        dsimp only at h
        obtain rfl := (Option.some.inj h).symm
        obtain rfl := loadtxt3_spec hcols hp
        exact ⟨fun hc => absurd hc hu,
               fun _ => ⟨rfl, rfl, fun _ => ⟨rfl, rfl⟩, fun hc => absurd htkv hc⟩,
               fun hc => absurd hc hs, fun _ => ⟨rfl, rfl⟩⟩
    · rw [if_neg htkv] at h
      by_cases hwk : sk = str "weight"
      · rw [if_pos hwk] at h
        simp only [Option.bind_eq_bind', Option.bind_eq_some'] at h
        obtain ⟨p, hp, h⟩ := h
        obtain ⟨a, b, c⟩ := p
        dsimp only at h
        obtain rfl := (Option.some.inj h).symm
        obtain rfl := loadtxt3_spec hcols hp
        refine ⟨fun hc => absurd hc hu,
                fun _ => ⟨rfl, rfl, fun hc => absurd hc htkv, fun _ => ⟨rfl, rfl⟩⟩,
                fun hs => ?_, fun _ => ⟨rfl, rfl⟩⟩
        rw [hwk] at hs
        exact absurd hs (by decide)
      · rw [if_neg hwk] at h
        simp only [Option.bind_eq_bind', Option.bind_eq_some'] at h
        obtain ⟨p, hp, h⟩ := h
        obtain ⟨a, b, c⟩ := p
        dsimp only at h
        obtain rfl := (Option.some.inj h).symm
        obtain rfl := loadtxt3_spec hcols hp
        exact ⟨fun hc => absurd hc hu,
               fun _ => ⟨rfl, rfl, fun hc => absurd hc htkv, fun _ => ⟨rfl, rfl⟩⟩,
               fun _ => ⟨rfl, rfl⟩, fun hc => absurd hc hwk⟩

theorem mkObs2_columns {st : PState} {fs : FS} {i k : Nat} {file : List Char}
    {obs : RVObs} {sk tk : List Char} {cols : List (List ℝ)}
    (h : mkObs2 st fs i k file = some obs)
    (hsk : pyGetN st.rvsigma i = some sk) (htk : pyGetN st.rvtime i = some tk)
    (hcols : fs file = some cols) :
    ObsColumnSpec sk tk cols obs := by
  simp only [mkObs2, Option.bind_eq_bind', Option.bind_eq_some'] at h
  obtain ⟨sk', hsk', tk', htk', w, hw, nm, hnm, h⟩ := h
  obtain rfl : sk = sk' := Option.some.inj (hsk.symm.trans hsk')
  obtain rfl : tk = tk' := Option.some.inj (htk.symm.trans htk')
  unfold ObsColumnSpec
  by_cases hu : sk = str "undefined"
  · subst hu
    rw [if_pos rfl] at h
    by_cases htkv : tk = str "time"
    · rw [if_pos htkv] at h
      simp only [Option.bind_eq_bind', Option.bind_eq_some'] at h
      obtain ⟨p, hp, h⟩ := h
      obtain ⟨a, b⟩ := p
      dsimp only at h
      obtain rfl := (Option.some.inj h).symm
      obtain rfl := loadtxt2_spec hcols hp
      exact ⟨fun _ => ⟨rfl, rfl, rfl, rfl, fun _ => ⟨rfl, rfl⟩, fun hc => absurd htkv hc⟩,
             fun hc => absurd rfl hc,
             fun hc => absurd hc (by decide), fun hc => absurd hc (by decide)⟩
    · rw [if_neg htkv] at h
      simp only [Option.bind_eq_bind', Option.bind_eq_some'] at h
      obtain ⟨p, hp, h⟩ := h
      obtain ⟨a, b⟩ := p
      dsimp only at h
      obtain rfl := (Option.some.inj h).symm
      obtain rfl := loadtxt2_spec hcols hp
      exact ⟨fun _ => ⟨rfl, rfl, rfl, rfl, fun hc => absurd hc htkv, fun _ => ⟨rfl, rfl⟩⟩,
             fun hc => absurd rfl hc,
             fun hc => absurd hc (by decide), fun hc => absurd hc (by decide)⟩
  · rw [if_neg hu] at h
    by_cases htkv : tk = str "time"
    · rw [if_pos htkv] at h
      by_cases hs : sk = str "sigma"
      · rw [if_pos hs] at h
        simp only [Option.bind_eq_bind', Option.bind_eq_some'] at h
        obtain ⟨p, hp, h⟩ := h
        obtain ⟨a, b, c⟩ := p
        dsimp only at h
        obtain rfl := (Option.some.inj h).symm
        obtain rfl := loadtxt3_spec hcols hp
        refine ⟨fun hc => absurd hc hu,
                fun _ => ⟨rfl, rfl, fun _ => ⟨rfl, rfl⟩, fun hc => absurd htkv hc⟩,
                fun _ => ⟨rfl, rfl⟩, fun hwk => ?_⟩
        rw [hs] at hwk
        exact absurd hwk (by decide)
      · rw [if_neg hs] at h
        simp only [Option.bind_eq_bind', Option.bind_eq_some'] at h
        obtain ⟨p, hp, h⟩ := h
        obtain ⟨a, b, c⟩ := p
        dsimp only at h
        obtain rfl := (Option.some.inj h).symm
        obtain rfl := loadtxt3_spec hcols hp
        exact ⟨fun hc => absurd hc hu,
               fun _ => ⟨rfl, rfl, fun _ => ⟨rfl, rfl⟩, fun hc => absurd htkv hc⟩,
               fun hc => absurd hc hs, fun _ => ⟨rfl, rfl⟩⟩
    · rw [if_neg htkv] at h
      by_cases hwk : sk = str "weight"
      · rw [if_pos hwk] at h
        simp only [Option.bind_eq_bind', Option.bind_eq_some'] at h
        obtain ⟨p, hp, h⟩ := h
        obtain ⟨a, b, c⟩ := p
        dsimp only at h
        obtain rfl := (Option.some.inj h).symm
        obtain rfl := loadtxt3_spec hcols hp
        refine ⟨fun hc => absurd hc hu,
                fun _ => ⟨rfl, rfl, fun hc => absurd hc htkv, fun _ => ⟨rfl, rfl⟩⟩,
                fun hs => ?_, fun _ => ⟨rfl, rfl⟩⟩
        rw [hwk] at hs
        exact absurd hs (by decide)
      · rw [if_neg hwk] at h
        simp only [Option.bind_eq_bind', Option.bind_eq_some'] at h
        obtain ⟨p, hp, h⟩ := h
        obtain ⟨a, b, c⟩ := p
        dsimp only at h
        obtain rfl := (Option.some.inj h).symm
        obtain rfl := loadtxt3_spec hcols hp
        exact ⟨fun hc => absurd hc hu,
               fun _ => ⟨rfl, rfl, fun hc => absurd hc htkv, fun _ => ⟨rfl, rfl⟩⟩,
               fun _ => ⟨rfl, rfl⟩, fun hc => absurd hc hwk⟩

/-- C6: every observation record built during RV assembly (primary or
secondary star) from a file with columns `cols`, under sigma/weight switch
`sk` and independent-variable switch `tk`, satisfies `ObsColumnSpec`: two
columns are read when `sk` is `undefined` and three otherwise; the first
column is bound as time when `tk` is `time` and as phase otherwise, the
second is the radial velocity, and the third is an uncertainty under
`sigma` and a weight under `weight`. -/
theorem rv_obs_columns :
    (∀ (st : PState) (fs : FS) (i j : Nat) (file : List Char) (obs : RVObs)
       (sk tk : List Char) (cols : List (List ℝ)),
       mkObs1 st fs i j file = some obs →
       pyGetN st.rvsigma i = some sk → pyGetN st.rvtime i = some tk →
       fs file = some cols → ObsColumnSpec sk tk cols obs) ∧
    (∀ (st : PState) (fs : FS) (i k : Nat) (file : List Char) (obs : RVObs)
       (sk tk : List Char) (cols : List (List ℝ)),
       mkObs2 st fs i k file = some obs →
       pyGetN st.rvsigma i = some sk → pyGetN st.rvtime i = some tk →
       fs file = some cols → ObsColumnSpec sk tk cols obs) :=
  ⟨fun _ _ _ _ _ _ _ _ _ h hs ht hc => mkObs1_columns h hs ht hc,
   fun _ _ _ _ _ _ _ _ _ h hs ht hc => mkObs2_columns h hs ht hc⟩

/-- Closed instance of the C6 theorem on a concrete state and file system. -/
theorem rv_obs_columns_witness :
    ObsColumnSpec (str "undefined") (str "time") [[(1:ℝ), 2], [3, 4]] obsSample :=
  rv_obs_columns.1 obsState obsFS 0 0 (str "rv.dat") obsSample
    (str "undefined") (str "time") [[1, 2], [3, 4]] rfl rfl rfl rfl

/-- C7: the concrete file with two RV entries both tagged `Primary RV`
parses to completion with zero secondary-star RV dependency records and two
primary-star records whose synthetic references are `primaryrv_0` and
`primaryrv_1` in file-encounter order. -/
theorem two_primary_rvs :
    (legacy_to_phoebe fileTwoPrimaryRV noFiles).map
      (fun r => (r.rvdep1.map RVDep.ref, r.rvdep2.length)) =
    some ([some (str "primaryrv_0"), some (str "primaryrv_1")], 0) := by
  rfl

/-! ## Closed instances of the remaining claim theorems -/

/-- Closed instance of the C1 theorem on the one-light-curve file. -/
theorem lcdep_arrays_parallel_witness :
    (resOneLC.lcdep1.length : Int) = 1 ∧ (resOneLC.lcdep2.length : Int) = 1 ∧
    resOneLC.lcdep2.map LCDep.ref = resOneLC.lcdep1.map LCDep.ref :=
  @lcdep_arrays_parallel fileOneLC noFiles resOneLC 1 rfl rfl (by decide)

/-- Closed instance of the C2 theorem on the two-primary-RV file. -/
theorem rv_counts_partition_witness :
    (resTwoPrimaryRV.rvdep1.length : Int) + (resTwoPrimaryRV.rvdep2.length : Int) = 2 :=
  @rv_counts_partition fileTwoPrimaryRV noFiles resTwoPrimaryRV 2 rfl rfl rfl

/-- Closed instance of the C3 theorem at concrete arguments. -/
theorem from_supconj_to_perpass_spec_witness :
    from_supconj_to_perpass 1 0 1 0 = 1 + (0 - 0.25 + 0 / (2 * Real.pi)) * 1 :=
  from_supconj_to_perpass_spec.1 1 0 1 0

/-- Closed instance of the amended C4 theorem at value 90. -/
theorem perr0_limits_stored_witness :
    psGet perr0State.orbit "per0.ulim" = some (.r ((90 : ℚ) * 180 / Real.pi)) :=
  (@perr0_limits_stored initState perr0State (str " 90\n") 90 (by decide)).1 rfl

/-- Closed instance of the amended C5 theorem on concrete lines. -/
theorem tokenizer_spec_witness :
    tokenize (str "key" ++ '=' :: str "val") = some (str "key", str "val") ∧
    tokenize (str "x=y=z") = none :=
  ⟨tokenizer_spec.1 (str "key") (str "val") (by decide) (by decide),
   tokenizer_spec.2 (str "x=y=z") (by decide)⟩

/-- Closed instance of the C8 theorem: splicing the malformed line
`garbage` between two valid lines leaves the parse unchanged. -/
theorem malformed_line_skipped_witness :
    legacy_to_phoebe (fileSplicePre ++ (str "garbage\n") :: fileSplicePost) noFiles =
    legacy_to_phoebe (fileSplicePre ++ fileSplicePost) noFiles :=
  malformed_line_skipped fileSplicePre fileSplicePost 'g' (str "arbage\n") noFiles
    (by decide) (by decide)

/-- Closed instance of the C9 theorem: a file starting with
`phoebe_ld_rvy1`, and one starting with `phoebe_ld_rvy2`, both abort. -/
theorem rvy_before_rvx_fatal_witness :
    legacy_to_phoebe [str "phoebe_ld_rvy1 = 0.55\n"] noFiles = none ∧
    legacy_to_phoebe [str "phoebe_ld_rvy2 = 0.55\n"] noFiles = none :=
  ⟨rvy_before_rvx_fatal.1 [] [] (str "phoebe_ld_rvy1 = 0.55\n") noFiles
     (by decide) (fun l hl => absurd hl (List.not_mem_nil l)),
   rvy_before_rvx_fatal.2 [] [] (str "phoebe_ld_rvy2 = 0.55\n") noFiles
     (by decide) (fun l hl => absurd hl (List.not_mem_nil l))⟩

/-- Closed instance of the C10 theorem on the minimal file. -/
theorem orbit_fixed_fields_witness :
    psGet resMinimal.orbit "t0type" = some (.s (str "superior conjunction")) ∧
    psGet resMinimal.orbit "label" = some (.s (str "myorbit")) ∧
    psGet resMinimal.orbit "c1label" = some (.s (str "myprimary")) ∧
    psGet resMinimal.orbit "c2label" = some (.s (str "mysecondary")) ∧
    psGet resMinimal.orbit "long_an" = some (.r 0) :=
  @orbit_fixed_fields fileMinimal noFiles resMinimal rfl
